import Mathlib

/-!
Verification development for the sccl language compiler IR pipeline
(`sccl/language/__init__.py`, `sccl/language/ir.py`, `sccl/language/rank_dag.py`).

The Python source is shallowly embedded: classes become structures, methods
become functions, Python `assert` and raised exceptions become `Except.error`,
in-place mutation becomes functional state passing.  Objects that the source
mutates through shared references (`Op` nodes of the rank DAG, `Op` objects
held by threadblocks and `slot_ops`) are represented in an arena (a `List` of
records) addressed by integer ids, so Python object identity is id equality.
Python `dict`s (which preserve insertion order) are association lists,
Python `set`s of integers are `Finset Int`, and Python `list`s keep their
index semantics (including negative-index wraparound) via `pyListGet`/
`pyListSet`.
-/

set_option linter.unusedVariables false

deriving instance DecidableEq for Except

/-- The instruction enumeration from `ir.py` (`class Instruction`). -/
inductive Instruction where
  | nop
  | send
  | recv
  | recv_copy_send
  | recv_reduce_send
  | recv_reduce_copy
  | recv_reduce_copy_send
  | copy
  | reduce
  | delete
  | start
  deriving DecidableEq, Repr, Inhabited

/-- A buffer key: the `Buffer.input` / `Buffer.output` / `Buffer.scratch`
enumeration values of `ir.py`, or a named scratch buffer (a Python string used
as a key of the per-rank `buffers` dict). -/
inductive BufKey where
  | input
  | output
  | scratch
  | name (s : String)
  deriving DecidableEq, Repr, Inhabited

/-- `ChunkRef` from `ir.py`: `(rank, buffer, index, size)`.  Sizes are
nonnegative in the source (they come from `len`, slicing and division of
nonnegative values), so `size` is a `Nat`. -/
structure CRef where
  rank : Int
  buffer : BufKey
  index : Int
  size : Nat
  deriving DecidableEq, Repr, Inhabited

/-- A rank-DAG operation node (`Op` of `ir.py` as used by `rank_dag.py`),
stored in an arena and addressed by `Nat` ids.  `prevs`/`nexts` are the
`prev`/`next` adjacency (after `convert_set_list`, `next` is a list and
`prev` is a set, modelled as a duplicate-free list), `matchl` is the `match`
list. -/
structure ROp where
  inst : Instruction
  rank : Int
  src : CRef
  dst : CRef
  tb : Int := -1
  chunk_step : Int := -1
  priority : Int := -1
  prevs : List Nat := []
  nexts : List Nat := []
  matchl : List Nat := []
  deriving DecidableEq, Repr, Inhabited

/-- `Op.cnt` from `ir.py`: the size of the source ref (rank-DAG ops always
carry both refs, and the source asserts `src.size == dst.size`). -/
def ROp.cnt (op : ROp) : Nat := op.src.size

/-- `writes_to_slot(op, slot)` from `rank_dag.py`, translated literally:
for `copy`/`reduce` the code compares the slot against `op.src`
(variable `cpy_src = op.src`) with the conjunction
`index < cpy_src.index and index > cpy_src.index + cpy_src.size`;
for every other instruction it returns `op.inst != Instruction.send`.
A slot is `(rank, buffer, index)`; the code ignores the rank component. -/
def writes_to_slot (op : ROp) (slot : Int × BufKey × Int) : Bool :=
  if op.inst = Instruction.copy ∨ op.inst = Instruction.reduce then
    decide (¬ (slot.2.1 = op.src.buffer)) ||
      (decide (slot.2.2 < op.src.index) &&
        decide (slot.2.2 > op.src.index + (op.src.size : Int)))
  else
    decide (¬ (op.inst = Instruction.send))

/-- The behaviour of `writes_to_slot` claimed by the specification: true
exactly for copy and reduce ops whose destination buffer-index range does not
contain the slot, false otherwise. -/
def writes_to_slot_claimed (op : ROp) (slot : Int × BufKey × Int) : Bool :=
  (decide (op.inst = Instruction.copy) || decide (op.inst = Instruction.reduce)) &&
    !(decide (op.dst.buffer = slot.2.1) &&
      decide (op.dst.index ≤ slot.2.2) &&
      decide (slot.2.2 < op.dst.index + (op.dst.size : Int)))

/-- What `writes_to_slot` actually computes: for `copy`/`reduce` the index
conjunction is unsatisfiable (a number cannot be both below `src.index` and
above `src.index + src.size`), so the result is just the buffer comparison
against the op's source buffer; for every other instruction the result is
`inst != send`. -/
def writes_to_slot_amended (op : ROp) (slot : Int × BufKey × Int) : Bool :=
  if op.inst = Instruction.copy ∨ op.inst = Instruction.reduce then
    decide (¬ (slot.2.1 = op.src.buffer))
  else
    decide (¬ (op.inst = Instruction.send))

/-- Arena read with a default, modelling attribute access on an `Op` object
(ids produced by the pipeline are always in range). -/
def getOp (g : List ROp) (i : Nat) : ROp := g.getD i default

/-- Arena write (in-place mutation of an `Op` object). -/
def setOp (g : List ROp) (i : Nat) (op : ROp) : List ROp := g.set i op

/-- Python `set.union` on id sets kept as duplicate-free lists: the left
operand's elements followed by the new ones of the right operand. -/
def idUnion (l1 l2 : List Nat) : List Nat := l1 ++ l2.filter (fun x => !l1.contains x)

/-- `remove_op(op)` from `rank_dag.py`: every predecessor `p` drops `op` from
`p.next` and inherits `op.next`; every successor `n` drops `op` from `n.prev`
and unions in `op.prev`. -/
def remove_op (g : List ROp) (j : Nat) : List ROp :=
  let op := getOp g j
  let g1 := op.prevs.foldl
    (fun g p =>
      setOp g p (let d := getOp g p; { d with nexts := (d.nexts.erase j) ++ op.nexts })) g
  op.nexts.foldl
    (fun g n =>
      setOp g n (let d := getOp g n; { d with prevs := idUnion op.prevs (d.prevs.erase j) })) g1

/-- `same_tb(op1, op2)` from `rank_dag.py`. -/
def same_tb (op1 op2 : ROp) : Bool := decide (op1.tb = op2.tb)

/-- `same_count(op1, op2)` from `rank_dag.py`. -/
def same_count (op1 op2 : ROp) : Bool := decide (op1.cnt = op2.cnt)

/-- `same_buf_dst(op1, op2)` from `rank_dag.py`: compares the two ops'
destination buffer and destination index. -/
def same_buf_dst (op1 op2 : ROp) : Bool :=
  decide (op1.dst.buffer = op2.dst.buffer) && decide (op1.dst.index = op2.dst.index)

/-- The in-place fusion of a recv with its successor send performed by
`RankDAG._optimize_rcs`: the instruction becomes `recv_copy_send`, the dst
becomes the send's dst, the send's `match` list is absorbed. -/
def rcs_fuse (op next_op : ROp) : ROp :=
  { op with inst := Instruction.recv_copy_send, dst := next_op.dst,
            matchl := op.matchl ++ next_op.matchl }

/-- One iteration body of the `while` loop of `RankDAG._optimize_rcs` for the
frontier head `i`: if `op.next` is a single op and the guard
(`recv` followed by `send`, `same_tb`, `same_count`, `same_buf_dst`) holds,
fuse in place and `remove_op` the successor. -/
def rcs_process (g : List ROp) (i : Nat) : List ROp :=
  let op := getOp g i
  match op.nexts with
  | [j] =>
    let next_op := getOp g j
    if op.inst = Instruction.recv ∧ next_op.inst = Instruction.send ∧
        same_tb op next_op = true ∧ same_count op next_op = true ∧
        same_buf_dst op next_op = true then
      remove_op (setOp g i (rcs_fuse op next_op)) j
    else g
  | _ => g

/-- The `while len(frontier) > 0` loop of `RankDAG._optimize_rcs`
(`frontier = frontier[1:] + op.next`, reading `op.next` after any mutation),
with explicit fuel for termination. -/
def rcs_loop : Nat → List ROp → List Nat → List ROp
  | 0, g, _ => g
  | _, g, [] => g
  | fuel + 1, g, i :: rest =>
    let g2 := rcs_process g i
    rcs_loop fuel g2 (rest ++ (getOp g2 i).nexts)

/-- `RankDAG._optimize_rcs`: the outer loop over the root op of every slot of
`self.operations`, each root seeding a fresh frontier. -/
def rcs_run (fuel : Nat) (g : List ROp) (roots : List Nat) : List ROp :=
  roots.foldl (fun g r => rcs_loop fuel g [r]) g

/-- An op row as processed by the dependency-expansion block of
`ir_to_xml` (`ir.py`): only the fields that block touches are relevant;
`depends` holds ids of depended-on ops, `src`/`dst` may be `None`. -/
structure XOp where
  inst : Instruction
  rank : Int
  src : Option CRef
  dst : Option CRef
  depends : List Nat
  deriving DecidableEq, Repr

/-- The nop row inserted by `ir_to_xml` for one extra dependency:
`Op(Instruction.nop, -1, None, None, [dep])`. -/
def nopFor (dep : Nat) : XOp :=
  { inst := Instruction.nop, rank := -1, src := none, dst := none, depends := [dep] }

/-- The per-op body of the expansion loop of `ir_to_xml`: an op with more than
one dependency contributes one nop row per extra dependency (`depends[1:]`)
followed by the op truncated to `depends[:1]`; any other op is kept as is. -/
def expandOp (op : XOp) : List XOp :=
  if 1 < op.depends.length then
    ((op.depends.drop 1).map nopFor) ++ [{ op with depends := op.depends.take 1 }]
  else
    [op]

/-- The `new_ops` list built by the expansion loop of `ir_to_xml` for one
threadblock's op list. -/
def expandOps (ops : List XOp) : List XOp := ops.flatMap expandOp

/-- `Chunk` from `sccl/language/__init__.py`. -/
structure Chunk where
  origin_rank : Int
  origin_index : Int
  dst_rank : Int := -1
  dst_index : Int := -1
  deriving DecidableEq, Repr, Inhabited

/-- `Chunk.__lt__`: lexicographic on `(origin_rank, origin_index)`. -/
def Chunk.ltb (a b : Chunk) : Bool :=
  decide (a.origin_rank < b.origin_rank) ||
    (decide (a.origin_rank = b.origin_rank) && decide (a.origin_index < b.origin_index))

/-- `Chunk.__eq__`: comparison by the origin pair only. -/
def Chunk.eqb (a b : Chunk) : Bool :=
  decide (a.origin_rank = b.origin_rank) && decide (a.origin_index = b.origin_index)

/-- The origin pair a chunk is compared and sorted by. -/
def chunkKey (c : Chunk) : Int × Int := (c.origin_rank, c.origin_index)

/-- The ordering `list.sort()` effectively sorts by when given `Chunk.__lt__`:
`a` may precede `b` exactly when `not (b < a)`. -/
def chunkLe (a b : Chunk) : Bool := ! Chunk.ltb b a

/-- Python `list.sort()` on chunks: a stable merge sort by `chunkLe`. -/
def pySortChunks (l : List Chunk) : List Chunk :=
  l.mergeSort chunkLe

/-- The lexicographic order on origin pairs that `chunkLe` realises. -/
def keyLe (p q : Int × Int) : Prop := p.1 < q.1 ∨ (p.1 = q.1 ∧ p.2 ≤ q.2)

instance : IsAntisymm (Int × Int) keyLe :=
  ⟨by
    intro a b h1 h2
    unfold keyLe at h1 h2
    obtain ⟨a1, a2⟩ := a
    obtain ⟨b1, b2⟩ := b
    simp only [Prod.mk.injEq]
    omega⟩

/-- Python `==` on lists of chunks: elementwise `Chunk.__eq__` (and equal
lengths). -/
def listChunkEqb : List Chunk → List Chunk → Bool
  | [], [] => true
  | a :: as_, b :: bs => Chunk.eqb a b && listChunkEqb as_ bs
  | _, _ => false

/-- `ReduceChunk` from `sccl/language/__init__.py`. -/
structure ReduceChunk where
  chunks : List Chunk
  deriving DecidableEq, Repr

/-- `ReduceChunk.__eq__`: sort both member lists with `Chunk.__lt__`, then
compare elementwise with `Chunk.__eq__`. -/
def ReduceChunk.eqb (x y : ReduceChunk) : Bool :=
  listChunkEqb (pySortChunks x.chunks) (pySortChunks y.chunks)

/-- A buffer cell value: a `Chunk` or a `ReduceChunk` (Python also stores
`None`, modelled as `Option CVal` at the buffer level). -/
inductive CVal where
  | chunk (c : Chunk)
  | red (chunks : List Chunk)
  deriving DecidableEq, Repr

/-- `Chunk.reduce(self, chunk)`: with a `ReduceChunk` argument it appends
itself to the argument's member list; with a `Chunk` argument it builds
`ReduceChunk([self, chunk])`; with `None` the source's `assert True` passes
and the method returns `None`. -/
def chunkReduce (s : Chunk) : Option CVal → Except String (Option CVal)
  | some (CVal.red l) => Except.ok (some (CVal.red (l ++ [s])))
  | some (CVal.chunk c) => Except.ok (some (CVal.red [s, c]))
  | none => Except.ok none

/-- `ReduceChunk.reduce(self, chunk)`: concatenates member lists for a
`ReduceChunk`, appends a `Chunk`; with `None` the final
`return ReduceChunk(chunks)` reads the unbound local `chunks` and raises. -/
def redReduce (l : List Chunk) : Option CVal → Except String (Option CVal)
  | some (CVal.red m) => Except.ok (some (CVal.red (l ++ m)))
  | some (CVal.chunk c) => Except.ok (some (CVal.red (l ++ [c])))
  | none => Except.error "NameError: local variable chunks referenced before assignment"

/-- Dispatch of `.reduce` on a buffer cell value. -/
def cvalReduce : CVal → Option CVal → Except String (Option CVal)
  | CVal.chunk s, o => chunkReduce s o
  | CVal.red l, o => redReduce l o

/-- The `BufferSlice` fields used by `RankDAG.lower_buffers`: the offset into
the global scratch buffer and the per-instance size. -/
structure RDBuf where
  offset : Int := -1
  isize : Nat := 0
  deriving DecidableEq, Repr, Inhabited

/-- Modelled from the spec: `BufferSlice.instance_size`, called by
`RankDAG.lower_buffers`, is not defined under `src/` (the `BufferSlice` class
in `src/sccl/language/__init__.py` predates it); per the spec's scratch-layout
and replication sections it is the number of chunk slots one instance of the
scratch buffer occupies. -/
def RDBuf.instance_size (b : RDBuf) : Nat := b.isize

/-- `BufferSlice.set_offset`. -/
def RDBuf.set_offset (b : RDBuf) (o : Int) : RDBuf := { b with offset := o }

/-- The test `key is not Buffer.input and key is not Buffer.output` used by
`lower_buffers` to recognise scratch entries of the buffers dict. -/
def isScratchKey (k : BufKey) : Bool :=
  decide (¬ (k = BufKey.input)) && decide (¬ (k = BufKey.output))

/-- The per-rank loop of `RankDAG.lower_buffers` with its running `offset`
accumulator: scratch entries get `set_offset(offset)` and advance the offset
by `buf.instance_size() * instances`; input/output entries are skipped. -/
def lower_buffers_go (instances : Nat) : Int → List (BufKey × RDBuf) → List (BufKey × RDBuf)
  | _, [] => []
  | offset, (k, b) :: rest =>
    if isScratchKey k then
      (k, b.set_offset offset) ::
        lower_buffers_go instances (offset + (b.instance_size * instances : Nat)) rest
    else
      (k, b) :: lower_buffers_go instances offset rest

/-- `RankDAG.lower_buffers` restricted to one rank's buffers dict
(the dict iterates in insertion order; the offset restarts at 0 per rank). -/
def RankDAG_lower_buffers_rank (instances : Nat) (bufs : List (BufKey × RDBuf)) :
    List (BufKey × RDBuf) :=
  lower_buffers_go instances 0 bufs

/-- `RankDAG.lower_buffers`: the loop over all ranks. -/
def RankDAG_lower_buffers (instances : Nat) (buffers : List (List (BufKey × RDBuf))) :
    List (List (BufKey × RDBuf)) :=
  buffers.map (RankDAG_lower_buffers_rank instances)

/-- The sum of the per-instance sizes of the scratch entries among the first
`k` entries of a rank's buffers dict. -/
def scratchPrefixSize : List (BufKey × RDBuf) → Nat → Nat
  | _, 0 => 0
  | [], _ + 1 => 0
  | hd :: tl, k + 1 =>
    (if isScratchKey hd.1 then hd.2.instance_size else 0) + scratchPrefixSize tl k

/-- Lookup in an insertion-ordered association list (a Python dict). -/
def alookup {κ β : Type} [DecidableEq κ] : List (κ × β) → κ → Option β
  | [], _ => none
  | (k2, v) :: rest, k => if k2 = k then some v else alookup rest k

/-- Dict assignment `d[k] = v`: replaces the value in place if the key is
present (keeping its position), otherwise appends the new entry. -/
def aset {κ β : Type} [DecidableEq κ] : List (κ × β) → κ → β → List (κ × β)
  | [], k, v => [(k, v)]
  | (k2, w) :: rest, k, v =>
    if k2 = k then (k2, v) :: rest else (k2, w) :: aset rest k v

/-- Dict membership `k in d`. -/
def amem {κ β : Type} [DecidableEq κ] (l : List (κ × β)) (k : κ) : Bool :=
  (alookup l k).isSome

/-- Resolve a Python list index: negative indices wrap around from the end,
out-of-range indices are an `IndexError`. -/
def pyWrap (n : Nat) (i : Int) : Int := if i < 0 then i + n else i

def pyIdx (n : Nat) (i : Int) : Option Nat :=
  if 0 ≤ pyWrap n i ∧ pyWrap n i < n then some (pyWrap n i).toNat else none

/-- Python `l[i]` on a list. -/
def pyListGet {α : Type} (l : List α) (i : Int) : Except String α :=
  match pyIdx l.length i with
  | some j =>
    match l.get? j with
    | some v => Except.ok v
    | none => Except.error "IndexError: list index out of range"
  | none => Except.error "IndexError: list index out of range"

/-- Python `l[i] = v` on a list. -/
def pyListSet {α : Type} (l : List α) (i : Int) (v : α) : Except String (List α) :=
  match pyIdx l.length i with
  | some j => Except.ok (l.set j v)
  | none => Except.error "IndexError: list assignment index out of range"

/-- A Python `assert cond, msg` statement. -/
def passert (b : Prop) [Decidable b] (msg : String) : Except String Unit :=
  if b then Except.ok () else Except.error msg

/-- The value of one entry of a rank's `buffers` dict in
`sccl/language/__init__.py`: either a plain Python list of chunk cells
(input/output buffers) or a `BufferSlice` (named scratch buffers) with its
`offset`, running `index` of chunks added, and `chunks` dict. -/
inductive BufVal where
  | vec (cells : List (Option CVal))
  | slice (offset : Int) (index : Nat) (chunks : List (Int × Option CVal))
  deriving DecidableEq, Repr

/-- Indexed read `buf[i]`: list indexing for input/output buffers,
`BufferSlice.__getitem__` (a dict lookup) for scratch. -/
def bufGet : BufVal → Int → Except String (Option CVal)
  | BufVal.vec cells, i => pyListGet cells i
  | BufVal.slice _ _ chunks, i =>
    match alookup chunks i with
    | some v => Except.ok v
    | none => Except.error "KeyError: missing chunk index"

/-- Indexed write `buf[i] = v`: list assignment for input/output buffers,
`BufferSlice.__setitem__` (a dict assignment) for scratch. -/
def bufSet : BufVal → Int → Option CVal → Except String BufVal
  | BufVal.vec cells, i, v => do
    Except.ok (BufVal.vec (← pyListSet cells i v))
  | BufVal.slice o ix chunks, i, v => Except.ok (BufVal.slice o ix (aset chunks i v))

/-- The `Ref` handle of the front-end facade (`class Ref` of
`sccl/language/__init__.py`), minus the back-pointer to the owning program
(which the embedding passes explicitly): buffer key, start index, size, owning
rank and the missing-index set produced by `group`. -/
structure RefF where
  buffer : BufKey
  index : Int
  size : Nat
  rank : Int
  missing : Finset Int := ∅
  deriving DecidableEq

/-- A chunk-level `Op` object created by the facade
(`Op(inst, src, dst, {}, step)` call sites of `__init__.py`) and mutated by
the `Process._add_*` methods (`op.tb`, `op.depends`); `depends` holds arena
ids of other ops. -/
structure POp where
  inst : Instruction
  src : RefF
  dst : RefF
  depends : List Nat := []
  step : Int := -1
  tb : Int := -1
  deriving DecidableEq

/-- A `Threadblock` as built by `Process._add_*`: channel, send peer, recv
peer (both `-1` when unbound) and the `ops` dict mapping step to op id. -/
structure TBData where
  channel : Int := -1
  send : Int := -1
  recv : Int := -1
  ops : List (Int × Nat) := []
  deriving DecidableEq, Repr

/-- The topology adapter: `num_nodes()` and the `link` predicate, supplied as
an explicit edge list. -/
structure Topology where
  nodes : Nat
  edges : List (Int × Int)
  deriving DecidableEq, Repr

/-- `topology.link(src, dst)`. -/
def Topology.link (t : Topology) (a b : Int) : Bool := decide ((a, b) ∈ t.edges)

/-- `topology.num_nodes()`. -/
def Topology.num_nodes (t : Topology) : Nat := t.nodes

/-- The mutable state of a `Process` (one rank). -/
structure ProcState where
  rank : Int
  buffers : List (BufKey × BufVal) := []
  tbs : List (Int × TBData) := []
  tb_mapping : List ((Instruction × Int × Int) × Int) := []
  tb_count : Int := 0
  slot_ops : List ((BufKey × Int) × List Nat) := []
  deriving DecidableEq

/-- The state of a `SCCLProgram` plus the arena of chunk-level `Op` objects
shared between ranks. -/
structure ProgState where
  name : String
  topo : Topology
  collective : String
  instances : Nat
  ranks : List ProcState := []
  run_opt : Bool := true
  arena : List POp := []
  deriving DecidableEq

/-- `self.prog.ranks[r]`. -/
def getRank (prog : ProgState) (r : Int) : Except String ProcState :=
  pyListGet prog.ranks r

/-- Write back a mutated rank. -/
def setRankSt (prog : ProgState) (r : Int) (p : ProcState) : Except String ProgState := do
  Except.ok { prog with ranks := ← pyListSet prog.ranks r p }

/-- Attribute access on an arena op. -/
def getArena (prog : ProgState) (i : Nat) : Except String POp :=
  match prog.arena.get? i with
  | some op => Except.ok op
  | none => Except.error "invalid op id"

/-- In-place mutation of an arena op. -/
def setArena (prog : ProgState) (i : Nat) (op : POp) : ProgState :=
  { prog with arena := prog.arena.set i op }

/-- Allocation of a fresh `Op` object, returning its id. -/
def newOp (prog : ProgState) (op : POp) : ProgState × Nat :=
  ({ prog with arena := prog.arena ++ [op] }, prog.arena.length)

/-- `Process._get_tbid(inst, other_rank, ch)`: memoised fresh threadblock ids
per `(instruction, peer, channel)` key. -/
def Proc_get_tbid (p : ProcState) (key : Instruction × Int × Int) : ProcState × Int :=
  match alookup p.tb_mapping key with
  | some tbid => (p, tbid)
  | none =>
    ({ p with tb_mapping := aset p.tb_mapping key p.tb_count, tb_count := p.tb_count + 1 },
      p.tb_count)

/-- One update of the `depends` dict of `Process._get_dependences`: keep at
most one op per threadblock, preferring the one with the larger `step`. -/
def depUpdate (arena : List POp) (depends : List (Int × Nat)) (lastId : Nat) :
    Except String (List (Int × Nat)) := do
  let lastOp ← (match arena.get? lastId with
    | some o => Except.ok o
    | none => Except.error "invalid op id")
  let tb := lastOp.tb
  match alookup depends tb with
  | none => Except.ok (aset depends tb lastId)
  | some curId => do
    let curOp ← (match arena.get? curId with
      | some o => Except.ok o
      | none => Except.error "invalid op id")
    if curOp.step < lastOp.step then Except.ok (aset depends tb lastId)
    else Except.ok depends

/-- `Process._get_dependences(buffer, start_index, size)`: for each covered
index take the most recent op of `slot_ops` (Python `[-1]`, an `IndexError`
on an empty list), merge per threadblock, and return the dict values. -/
def Proc_get_dependences (prog : ProgState) (p : ProcState) (buffer : BufKey)
    (start_index : Int) (size : Nat) : Except String (List Nat) := do
  let depends ← (List.range size).foldlM
    (fun depends i => do
      let key := (buffer, start_index + (i : Int))
      match alookup p.slot_ops key with
      | some lst =>
        match lst.getLast? with
        | some lastId => depUpdate prog.arena depends lastId
        | none => Except.error "IndexError: list index out of range"
      | none => Except.ok depends)
    ([] : List (Int × Nat))
  Except.ok (depends.map Prod.snd)

/-- `Process._update_slot_ops(buffer, index, op, tbid)`. -/
def Proc_update_slot_ops (p : ProcState) (buffer : BufKey) (index : Int) (opId : Nat) :
    ProcState :=
  match alookup p.slot_ops (buffer, index) with
  | some lst => { p with slot_ops := aset p.slot_ops (buffer, index) (lst ++ [opId]) }
  | none => { p with slot_ops := aset p.slot_ops (buffer, index) [opId] }

/-- `self.buffers[k][i]` on a rank. -/
def procBufGet (p : ProcState) (k : BufKey) (i : Int) : Except String (Option CVal) :=
  match alookup p.buffers k with
  | some b => bufGet b i
  | none => Except.error "KeyError: unknown buffer"

/-- `self.buffers[k][i] = v` on a rank. -/
def procBufSet (p : ProcState) (k : BufKey) (i : Int) (v : Option CVal) :
    Except String ProcState :=
  match alookup p.buffers k with
  | some b => do Except.ok { p with buffers := aset p.buffers k (← bufSet b i v) }
  | none => Except.error "KeyError: unknown buffer"

/-- The threadblock-update block of `Process._add_send` (`__init__.py` lines
237-245): a fresh tbid creates the threadblock with its send peer bound;
otherwise the send peer must be unset or equal (assert), the op's step must be
unoccupied (assert), and the op is stored. -/
def sendTbUpdate (p : ProcState) (rankv tbid step ch sendto : Int) (opId : Nat) :
    Except String ProcState :=
  match alookup p.tbs tbid with
  | none =>
    let tb : TBData := { channel := ch, send := sendto, recv := -1, ops := [(step, opId)] }
    Except.ok { p with tbs := aset p.tbs tbid tb }
  | some tb => do
    passert (tb.send = -1 ∨ tb.send = sendto)
      "assert: Threadblock is already set to send to another rank"
    passert (amem tb.ops step = false) "assert: Step already in threadblock"
    Except.ok
      { p with tbs := aset p.tbs tbid { tb with send := sendto, ops := aset tb.ops step opId } }

/-- The threadblock-update block shared verbatim by `Process._add_recv`,
`Process._add_receive_reduce_copy` and `Process._add_reduce`: binds the recv
peer (assert unset-or-equal), asserts the step unoccupied, stores the op. -/
def recvTbUpdate (p : ProcState) (rankv tbid step ch recvfrom : Int) (opId : Nat) :
    Except String ProcState :=
  match alookup p.tbs tbid with
  | none =>
    let tb : TBData := { channel := ch, send := -1, recv := recvfrom, ops := [(step, opId)] }
    Except.ok { p with tbs := aset p.tbs tbid tb }
  | some tb => do
    passert (tb.recv = -1 ∨ tb.recv = recvfrom)
      "assert: Threadblock is already set to receive from another rank"
    passert (amem tb.ops step = false) "assert: Step already in threadblock"
    Except.ok
      { p with tbs := aset p.tbs tbid { tb with recv := recvfrom, ops := aset tb.ops step opId } }

/-- The threadblock-update block of `Process._add_copy` (`__init__.py` lines
298-303): it has no peer assert and, unlike every other `_add_*` method, no
duplicate-step assert; `tb.ops[step] = op` silently overwrites. -/
def copyTbUpdate (p : ProcState) (tbid step ch : Int) (opId : Nat) : ProcState :=
  match alookup p.tbs tbid with
  | none =>
    let tb : TBData := { channel := ch, send := -1, recv := -1, ops := [(step, opId)] }
    { p with tbs := aset p.tbs tbid tb }
  | some tb =>
    { p with tbs := aset p.tbs tbid { tb with ops := aset tb.ops step opId } }

/-- One iteration of the chunk loop of `Process._add_recv`: copy the received
chunk from the source rank's buffer into the destination slot and record the
op in `slot_ops`. -/
def recvChunkStep (r : Int) (op : POp) (opId : Nat) (prog : ProgState) (i : Nat) :
    Except String ProgState := do
  let srcp ← getRank prog op.src.rank
  let v ← procBufGet srcp op.src.buffer (op.src.index + (i : Int))
  let selfp ← getRank prog r
  let selfp ← procBufSet selfp op.dst.buffer (op.dst.index + (i : Int)) v
  let selfp := Proc_update_slot_ops selfp op.dst.buffer (op.dst.index + (i : Int)) opId
  setRankSt prog r selfp

/-- One iteration of the chunk loop of `Process._add_copy`: copy between the
rank's own buffers and record the op in `slot_ops`. -/
def copyChunkStep (r : Int) (op : POp) (opId : Nat) (prog : ProgState) (i : Nat) :
    Except String ProgState := do
  let selfp ← getRank prog r
  let v ← procBufGet selfp op.src.buffer (op.src.index + (i : Int))
  let selfp ← procBufSet selfp op.dst.buffer (op.dst.index + (i : Int)) v
  let selfp := Proc_update_slot_ops selfp op.dst.buffer (op.dst.index + (i : Int)) opId
  setRankSt prog r selfp

/-- One iteration of the chunk loop of `Process._add_receive_reduce_copy`:
`reduce_chunk.reduce(other_chunk)` into the destination slot. -/
def rrcChunkStep (r : Int) (op : POp) (opId : Nat) (prog : ProgState) (i : Nat) :
    Except String ProgState := do
  let selfp ← getRank prog r
  let rc ← procBufGet selfp op.dst.buffer (op.dst.index + (i : Int))
  let srcp ← getRank prog op.src.rank
  let oc ← procBufGet srcp op.src.buffer (op.src.index + (i : Int))
  match rc with
  | none => Except.error "AttributeError: NoneType has no attribute reduce"
  | some rcv => do
    let res ← cvalReduce rcv oc
    let selfp ← procBufSet selfp op.dst.buffer (op.dst.index + (i : Int)) res
    let selfp := Proc_update_slot_ops selfp op.dst.buffer (op.dst.index + (i : Int)) opId
    setRankSt prog r selfp

/-- One iteration of the chunk loop of `Process._add_reduce`:
`other_chunk.reduce(reduce_chunk)` into the destination slot. -/
def reduceChunkStep (r : Int) (op : POp) (opId : Nat) (prog : ProgState) (i : Nat) :
    Except String ProgState := do
  let selfp ← getRank prog r
  let rc ← procBufGet selfp op.dst.buffer (op.dst.index + (i : Int))
  let srcp ← getRank prog op.src.rank
  let oc ← procBufGet srcp op.src.buffer (op.src.index + (i : Int))
  match oc with
  | none => Except.error "AttributeError: NoneType has no attribute reduce"
  | some ocv => do
    let res ← cvalReduce ocv rc
    let selfp ← procBufSet selfp op.dst.buffer (op.dst.index + (i : Int)) res
    let selfp := Proc_update_slot_ops selfp op.dst.buffer (op.dst.index + (i : Int)) opId
    setRankSt prog r selfp

/-- `Process._add_send(tbid, step, ch, op)` on rank `r` of the program. -/
def Proc_add_send (prog : ProgState) (r : Int) (tbid0 step ch : Int) (opId : Nat) :
    Except String ProgState := do
  let op ← getArena prog opId
  passert (op.inst = Instruction.send) "assert: op.inst == Instruction.send"
  let sendto := op.dst.rank
  let p ← getRank prog r
  let (p, tbid) :=
    if tbid0 = -1 then Proc_get_tbid p (Instruction.send, sendto, ch) else (p, tbid0)
  let p ← sendTbUpdate p r tbid step ch sendto opId
  let deps ← Proc_get_dependences prog p op.src.buffer op.src.index op.src.size
  let prog ← setRankSt prog r p
  let prog := setArena prog opId { op with tb := tbid, depends := deps }
  let p ← getRank prog r
  let p := (List.range op.src.size).foldl
    (fun p _ => Proc_update_slot_ops p op.src.buffer op.src.index opId) p
  setRankSt prog r p

/-- `Process._add_recv(tbid, step, ch, op)` on rank `r`: resolves the tbid,
fills in `op.tb`/`op.depends`, copies the received chunks from the source
rank's buffers into the destination slots (updating `slot_ops`), then runs the
threadblock update with its asserts. -/
def Proc_add_recv (prog : ProgState) (r : Int) (tbid0 step ch : Int) (opId : Nat) :
    Except String ProgState := do
  let op ← getArena prog opId
  passert (op.inst = Instruction.recv) "assert: op.inst == Instruction.recv"
  let receivefrom := op.src.rank
  let p ← getRank prog r
  let (p, tbid) :=
    if tbid0 = -1 then Proc_get_tbid p (Instruction.recv, receivefrom, ch) else (p, tbid0)
  let deps ← Proc_get_dependences prog p op.src.buffer op.src.index op.src.size
  let prog ← setRankSt prog r p
  let prog := setArena prog opId { op with tb := tbid, depends := deps }
  let prog ← (List.range op.src.size).foldlM (recvChunkStep r op opId) prog
  let p ← getRank prog r
  let p ← recvTbUpdate p r tbid step ch receivefrom opId
  setRankSt prog r p

/-- `Process._add_copy(tbid, step, ch, op)` on rank `r`: copies the chunks
between the rank's own buffers, then stores the op with no step assert. -/
def Proc_add_copy (prog : ProgState) (r : Int) (tbid0 step ch : Int) (opId : Nat) :
    Except String ProgState := do
  let op ← getArena prog opId
  passert (op.inst = Instruction.copy) "assert: op.inst == Instruction.copy"
  let p ← getRank prog r
  let (p, tbid) :=
    if tbid0 = -1 then Proc_get_tbid p (Instruction.copy, -1, ch) else (p, tbid0)
  let deps ← Proc_get_dependences prog p op.src.buffer op.src.index op.src.size
  let prog ← setRankSt prog r p
  let prog := setArena prog opId { op with tb := tbid, depends := deps }
  let prog ← (List.range op.src.size).foldlM (copyChunkStep r op opId) prog
  let p ← getRank prog r
  let p := copyTbUpdate p tbid step ch opId
  setRankSt prog r p

/-- `Process._add_receive_reduce_copy(tbid, step, ch, op)` on rank `r` (the
source has no instruction assert here): reduces the incoming chunks into the
destination slots via `reduce_chunk.reduce(other_chunk)` (an `AttributeError`
when the destination cell is `None`), then runs the recv threadblock update. -/
def Proc_add_receive_reduce_copy (prog : ProgState) (r : Int) (tbid0 step ch : Int)
    (opId : Nat) : Except String ProgState := do
  let op ← getArena prog opId
  let receivefrom := op.src.rank
  let p ← getRank prog r
  let (p, tbid) :=
    if tbid0 = -1 then Proc_get_tbid p (Instruction.recv, receivefrom, ch) else (p, tbid0)
  let deps ← Proc_get_dependences prog p op.src.buffer op.src.index op.src.size
  let prog ← setRankSt prog r p
  let prog := setArena prog opId { op with tb := tbid, depends := deps }
  let prog ← (List.range op.src.size).foldlM (rrcChunkStep r op opId) prog
  let p ← getRank prog r
  let p ← recvTbUpdate p r tbid step ch receivefrom opId
  setRankSt prog r p

/-- `Process._add_reduce(tbid, step, ch, op)` on rank `r`: like the above but
the tbid key uses `Instruction.copy` and the reduction is
`other_chunk.reduce(reduce_chunk)`. -/
def Proc_add_reduce (prog : ProgState) (r : Int) (tbid0 step ch : Int) (opId : Nat) :
    Except String ProgState := do
  let op ← getArena prog opId
  let receivefrom := op.src.rank
  let p ← getRank prog r
  let (p, tbid) :=
    if tbid0 = -1 then Proc_get_tbid p (Instruction.copy, receivefrom, ch) else (p, tbid0)
  let deps ← Proc_get_dependences prog p op.src.buffer op.src.index op.src.size
  let prog ← setRankSt prog r p
  let prog := setArena prog opId { op with tb := tbid, depends := deps }
  let prog ← (List.range op.src.size).foldlM (reduceChunkStep r op opId) prog
  let p ← getRank prog r
  let p ← recvTbUpdate p r tbid step ch receivefrom opId
  setRankSt prog r p

/-- `Ref._end()`: one past the last covered index. -/
def refEnd (r : RefF) : Int := r.index + (r.size : Nat)

/-- `Ref.group(self, other)` from `__init__.py`: asserts same rank and same
buffer, spans from the lower ref's start to the larger end, and computes the
missing set as the full covered range minus the populated parts of either ref
(`set(range(first.index, end))` with two `difference_update` calls). -/
def Ref.group (a b : RefF) : Except String RefF := do
  passert (a.rank = b.rank) "assert: Trying to concatenate chunks on different ranks"
  passert (a.buffer = b.buffer) "assert: Trying to concatenate chunks in different buffers"
  let (first, second) := if a.index < b.index then (a, b) else (b, a)
  let e := max (refEnd first) (refEnd second)
  let missing := ((Finset.Ico first.index e) \
      ((Finset.Ico first.index (refEnd first)) \ first.missing)) \
    ((Finset.Ico second.index (refEnd second)) \ second.missing)
  Except.ok { buffer := a.buffer, index := first.index, size := (e - first.index).toNat,
              rank := a.rank, missing := missing }

/-- `Ref.split(self, num)` from `__init__.py`: asserts divisibility
(`num = 0` is Python's `ZeroDivisionError`), and returns `num` equal sub-refs,
each constructed with an empty `missing` container (the source passes the
literal `{}`, an empty dict, whose length and membership are those of the
empty set). -/
def Ref.split (r : RefF) (num : Int) : Except String (List RefF) := do
  if num = 0 then Except.error "ZeroDivisionError: integer division or modulo by zero"
  else do
    passert ((r.size : Int) % num = 0) "assert: Trying to split a chunk into unequal parts"
    let size : Int := (r.size : Int) / num
    Except.ok ((List.range num.toNat).map (fun i =>
      { buffer := r.buffer, index := r.index + Int.ofNat i * size, size := size.toNat,
        rank := r.rank, missing := (∅ : Finset Int) }))

/-- `Ref._copy(buffer, index, step, tb, ch)`: builds the destination ref via
`get_ref`, allocates a copy `Op` and hands it to `Process._add_copy`. -/
def Ref.copyLocal (prog : ProgState) (self : RefF) (bk : BufKey) (index : Int)
    (step tb ch : Int) : Except String (ProgState × RefF) := do
  let dst_chunkref : RefF :=
    { buffer := bk, index := index, size := self.size, rank := self.rank }
  let (prog, opId) := newOp prog
    { inst := Instruction.copy, src := self, dst := dst_chunkref, step := step }
  let prog ← Proc_add_copy prog self.rank tb step ch opId
  Except.ok (prog, dst_chunkref)

/-- The scratch-slab allocation performed by `Ref.send` when the destination
buffer is a named scratch and `index == -1`:
`self.prog.ranks[dst].buffers[buffer].get_next_index(self.size)`, which
returns the current running index and advances it by `size`. -/
def scratchNextIndex (prog : ProgState) (dst : Int) (bk : BufKey) (size : Nat) :
    Except String (ProgState × Int) := do
  let dstp ← getRank prog dst
  match alookup dstp.buffers bk with
  | some (BufVal.slice off ix chunks) => do
    let dstp := { dstp with buffers := aset dstp.buffers bk (BufVal.slice off (ix + size) chunks) }
    let prog ← setRankSt prog dst dstp
    Except.ok (prog, (ix : Int))
  | some (BufVal.vec _) => Except.error "AttributeError: list has no attribute get_next_index"
  | none => Except.error "KeyError: unknown buffer"

/-- `Ref.send(self, dst, buffer, index, step, sendtb, recvtb, ch)` from
`__init__.py`.  Its first statement asserts that the missing set is empty;
then multi-chunk sends disable the optimization passes; then the destination
buffer/index are defaulted (same place for `(None, -1)`, next scratch slab for
a scratch buffer with `index == -1`); a same-rank destination lowers to
`_copy`; otherwise the topology link is asserted and a send/recv op pair is
created and added to the two ranks.  (When the defaulting leaves `buffer`
as Python `None` the embedding fails at the point `None` would first be used
as a buffer key.) -/
def Ref.sendTo (prog0 : ProgState) (self : RefF) (dst : Int) (buffer : Option BufKey)
    (index : Int) (step sendtb recvtb ch : Int) : Except String (ProgState × RefF) := do
  passert (self.missing = ∅)
    "assert: Trying to send an incomplete concatenation. Missing indices"
  let prog := if 1 < self.size then { prog0 with run_opt := false } else prog0
  let (buffer, index, prog) ←
    if index = -1 ∧ buffer = none then
      Except.ok (some self.buffer, self.index, prog)
    else if index = -1 ∧ ¬ (buffer = some BufKey.input) ∧ ¬ (buffer = some BufKey.output) then
      match buffer with
      | some bk => do
        let (prog, idx) ← scratchNextIndex prog dst bk self.size
        Except.ok (some bk, idx, prog)
      | none => Except.error "unreachable: buffer is None only in the first branch"
    else
      Except.ok (buffer, index, prog)
  let bk ← (match buffer with
    | some b => Except.ok b
    | none => Except.error "TypeError: buffer is None")
  if dst = self.rank then
    Ref.copyLocal prog self bk index step sendtb ch
  else do
    passert (prog.topo.link self.rank dst = true) "assert: No link between ranks"
    let dst_chunkref : RefF :=
      { buffer := bk, index := index, size := self.size, rank := dst }
    let (prog, sendId) := newOp prog
      { inst := Instruction.send, src := self, dst := dst_chunkref, step := step }
    let prog ← Proc_add_send prog self.rank sendtb step ch sendId
    let (prog, recvId) := newOp prog
      { inst := Instruction.recv, src := self, dst := dst_chunkref, step := step }
    let prog ← Proc_add_recv prog dst recvtb step ch recvId
    Except.ok (prog, dst_chunkref)

/-- `alltoall_expected_output(prog, instances)` from `__init__.py`: every
output cell must hold the chunk with the matching origin (a `ReduceChunk`
cell would raise an `AttributeError` on `origin_rank`); a mismatch only
clears the running `correct` flag. -/
def alltoall_expected_output (prog : ProgState) (instances : Nat) : Except String Bool := do
  let num_ranks := prog.topo.num_nodes
  (List.range num_ranks).foldlM
    (fun correct r => do
      let proc ← pyListGet prog.ranks (r : Int)
      (List.range num_ranks).foldlM
        (fun correct i =>
          (List.range instances).foldlM
            (fun correct ch => do
              let index := ch + i * instances
              let cv ← procBufGet proc BufKey.output (index : Int)
              let expected := ch + r * instances
              match cv with
              | none => Except.ok (correct && false)
              | some (CVal.chunk c) =>
                Except.ok (correct &&
                  (decide (c.origin_rank = (i : Int)) && decide (c.origin_index = (expected : Int))))
              | some (CVal.red _) =>
                Except.error "AttributeError: ReduceChunk has no attribute origin_rank")
            correct)
        correct)
    true

/-- `allgather_expected_output(prog)` from `__init__.py`. -/
def allgather_expected_output (prog : ProgState) : Except String Bool := do
  let num_ranks := prog.topo.num_nodes
  (List.range num_ranks).foldlM
    (fun correct r => do
      let proc ← pyListGet prog.ranks (r : Int)
      (List.range num_ranks).foldlM
        (fun correct i => do
          let cv ← procBufGet proc BufKey.output (i : Int)
          match cv with
          | none => Except.ok (correct && false)
          | some (CVal.chunk c) =>
            Except.ok (correct &&
              (decide (c.origin_rank = (i : Int)) && decide (c.origin_index = 0)))
          | some (CVal.red _) =>
            Except.error "AttributeError: ReduceChunk has no attribute origin_rank")
        correct)
    true

/-- The expected reduced chunk list for slot `c` of an allreduce:
`ReduceChunk([])` reduced with `Chunk(r, c)` for every rank in order. -/
def allreduceExpected (num_ranks : Nat) (c : Nat) : List Chunk :=
  (List.range num_ranks).foldl
    (fun l r => l ++ [{ origin_rank := (r : Int), origin_index := (c : Int) }]) []

/-- `allreduce_expected_output(prog, instances)` from `__init__.py`: reads the
INPUT buffer (as the source does) and compares each cell against the expected
`ReduceChunk` with Python `!=` (`Chunk.__eq__` against a `ReduceChunk` is
`False`; `ReduceChunk.__eq__` is the sort-then-compare of
`ReduceChunk.eqb`). -/
def allreduce_expected_output (prog : ProgState) (instances : Nat) : Except String Bool := do
  let num_ranks := prog.topo.num_nodes
  let chunks_per_node := instances
  (List.range num_ranks).foldlM
    (fun correct r => do
      let proc ← pyListGet prog.ranks (r : Int)
      (List.range chunks_per_node).foldlM
        (fun correct c => do
          let cv ← procBufGet proc BufKey.input (Int.ofNat c)
          match cv with
          | none => Except.ok (correct && false)
          | some (CVal.chunk _) => Except.ok (correct && false)
          | some (CVal.red l) =>
            Except.ok (correct &&
              ReduceChunk.eqb { chunks := l } { chunks := allreduceExpected num_ranks c }))
        correct)
    true

/-- `SCCLProgram.check()` from `__init__.py`: dispatch on the collective name,
with a bare `return False` for every other name. -/
def SCCLProgram_check (prog : ProgState) : Except String Bool :=
  if prog.collective = "alltoall" then alltoall_expected_output prog prog.instances
  else if prog.collective = "allgather" then allgather_expected_output prog
  else if prog.collective = "allreduce" then allreduce_expected_output prog prog.instances
  else Except.ok false

/-- The threadblock record a rank currently associates with `tbid`, read off a
program state (used to state invariants about the `_add_*` methods). -/
def rankTbLookup (prog : ProgState) (r : Int) (tbid : Int) : Option TBData :=
  match getRank prog r with
  | Except.ok p => alookup p.tbs tbid
  | Except.error _ => none

/-- The `ops` dict of the threadblock `tbid` of rank `r` in the result of an
`_add_*` call, when the call succeeded. -/
def resultTbOps (res : Except String ProgState) (r tbid : Int) : Option (List (Int × Nat)) :=
  match res with
  | Except.ok prog => (rankTbLookup prog r tbid).map TBData.ops
  | Except.error _ => none

/-- A recv op: a concrete input on which `writes_to_slot` disagrees with the
specified behaviour. -/
def c2op : ROp :=
  { inst := Instruction.recv, rank := 1,
    src := { rank := 0, buffer := BufKey.input, index := 0, size := 1 },
    dst := { rank := 1, buffer := BufKey.output, index := 3, size := 1 } }

/-- A slot not contained in the destination range of `c2op`. -/
def c2slot : Int × BufKey × Int := (1, BufKey.output, 9)

/-- A recv on rank 1 writing `(output, 5)`, whose sole successor forwards that
same slot (`send.src = recv.dst`) to slot `(output, 3)` of rank 2. -/
def rcsOpRecv : ROp :=
  { inst := Instruction.recv, rank := 1,
    src := { rank := 0, buffer := BufKey.output, index := 5, size := 1 },
    dst := { rank := 1, buffer := BufKey.output, index := 5, size := 1 },
    tb := 0, prevs := [], nexts := [1], matchl := [] }

/-- The successor send of `rcsOpRecv`: same threadblock, same count, source
equal to the recv's destination, but a different destination index. -/
def rcsOpSend : ROp :=
  { inst := Instruction.send, rank := 1,
    src := { rank := 1, buffer := BufKey.output, index := 5, size := 1 },
    dst := { rank := 2, buffer := BufKey.output, index := 3, size := 1 },
    tb := 0, prevs := [0], nexts := [], matchl := [] }

/-- The two-op graph for the recv-copy-send counterexample. -/
def rcsCounterGraph : List ROp := [rcsOpRecv, rcsOpSend]

/-- A recv whose successor send also has the same destination buffer and
index, so the source's `same_buf_dst` guard holds and fusion fires. -/
def rcsWOpRecv : ROp :=
  { inst := Instruction.recv, rank := 1,
    src := { rank := 0, buffer := BufKey.output, index := 5, size := 1 },
    dst := { rank := 1, buffer := BufKey.output, index := 5, size := 1 },
    tb := 0, prevs := [], nexts := [1], matchl := [7] }

/-- The successor send of `rcsWOpRecv` with matching destination buffer and
index on the peer rank. -/
def rcsWOpSend : ROp :=
  { inst := Instruction.send, rank := 1,
    src := { rank := 1, buffer := BufKey.output, index := 5, size := 1 },
    dst := { rank := 2, buffer := BufKey.output, index := 5, size := 1 },
    tb := 0, prevs := [0], nexts := [], matchl := [9] }

/-- The two-op graph on which the recv-copy-send fusion fires. -/
def rcsWitnessGraph : List ROp := [rcsWOpRecv, rcsWOpSend]

/-- An op list whose single op has three dependencies (for the `ir_to_xml`
expansion). -/
def xop3 : XOp :=
  { inst := Instruction.recv, rank := 0,
    src := none,
    dst := some { rank := 0, buffer := BufKey.output, index := 0, size := 1 },
    depends := [1, 2, 3] }

/-- A rank-0 process with a two-cell input buffer and a threadblock whose
step 0 is already occupied (by op id 5). -/
def procCopyOcc : ProcState :=
  { rank := 0,
    buffers := [(BufKey.input,
      BufVal.vec [some (CVal.chunk { origin_rank := 0, origin_index := 0 }), none])],
    tbs := [(0, { channel := 0, send := -1, recv := -1, ops := [(0, 5)] })],
    tb_mapping := [], tb_count := 0, slot_ops := [] }

/-- A copy op on rank 0 from input slot 0 to input slot 1. -/
def copyOp0 : POp :=
  { inst := Instruction.copy,
    src := { buffer := BufKey.input, index := 0, size := 1, rank := 0 },
    dst := { buffer := BufKey.input, index := 1, size := 1, rank := 0 },
    step := 0 }

/-- A program state on which `_add_copy` is called at an occupied step. -/
def cprogCopy : ProgState :=
  { name := "p", topo := { nodes := 1, edges := [] }, collective := "custom",
    instances := 1, ranks := [procCopyOcc], arena := [copyOp0] }

/-- A send op on rank 0 targeting rank 1. -/
def sendOp0 : POp :=
  { inst := Instruction.send,
    src := { buffer := BufKey.input, index := 0, size := 1, rank := 0 },
    dst := { buffer := BufKey.output, index := 0, size := 1, rank := 1 },
    step := 0 }

/-- A rank-0 process whose threadblock 0 already occupies step 0. -/
def procSendOcc : ProcState :=
  { rank := 0,
    buffers := [(BufKey.input,
      BufVal.vec [some (CVal.chunk { origin_rank := 0, origin_index := 0 })])],
    tbs := [(0, { channel := 0, send := 1, recv := -1, ops := [(0, 5)] })],
    tb_mapping := [], tb_count := 0, slot_ops := [] }

/-- A program state on which `_add_send` is called at an occupied step. -/
def cprogSendOcc : ProgState :=
  { name := "p", topo := { nodes := 2, edges := [(0, 1)] }, collective := "custom",
    instances := 1, ranks := [procSendOcc], arena := [sendOp0] }

/-- A rank-0 process whose threadblock 0 is already bound to send peer 2. -/
def procPeerConf : ProcState :=
  { rank := 0,
    buffers := [(BufKey.input,
      BufVal.vec [some (CVal.chunk { origin_rank := 0, origin_index := 0 })])],
    tbs := [(0, { channel := 0, send := 2, recv := 3, ops := [] })],
    tb_mapping := [], tb_count := 0, slot_ops := [] }

/-- A program state on which `_add_send` would rebind threadblock 0 from peer
2 to peer 1. -/
def cprogPeerConf : ProgState :=
  { name := "p", topo := { nodes := 2, edges := [(0, 1)] }, collective := "custom",
    instances := 1, ranks := [procPeerConf], arena := [sendOp0] }

/-- A ref covering `[0, 4)` of rank 0's output buffer. -/
def refA : RefF := { buffer := BufKey.output, index := 0, size := 4, rank := 0 }

/-- A ref covering `[6, 10)` of rank 0's output buffer. -/
def refB : RefF := { buffer := BufKey.output, index := 6, size := 4, rank := 0 }

/-- A minimal program state for exercising `Ref.send`. -/
def cprogMini : ProgState :=
  { name := "p", topo := { nodes := 2, edges := [(0, 1), (1, 0)] }, collective := "custom",
    instances := 1,
    ranks := [{ rank := 0, buffers := [(BufKey.output, BufVal.vec [none, none])] },
              { rank := 1, buffers := [(BufKey.output, BufVal.vec [none, none])] }],
    arena := [] }

/-- An incompletely grouped ref: `[0, 10)` with indices 4 and 5 missing. -/
def ref9 : RefF :=
  { buffer := BufKey.output, index := 0, size := 10, rank := 0,
    missing := ({4, 5} : Finset Int) }

/-- A program state whose collective name is none of the three known ones. -/
def cprog10 : ProgState :=
  { name := "p", topo := { nodes := 2, edges := [] }, collective := "broadcast",
    instances := 1, ranks := [] }

/-- The S5 buffers dict: two named scratch buffers of per-instance sizes 3 and
5, in insertion order. -/
def bufsS5 : List (BufKey × RDBuf) :=
  [(BufKey.name "a", { offset := -1, isize := 3 }),
   (BufKey.name "b", { offset := -1, isize := 5 })]

/-- Two `ReduceChunk`s whose member lists are permutations of each other. -/
def rc8a : ReduceChunk :=
  { chunks := [{ origin_rank := 1, origin_index := 0 }, { origin_rank := 0, origin_index := 2 },
               { origin_rank := 0, origin_index := 1 }] }

/-- The same multiset of chunks in a different order. -/
def rc8b : ReduceChunk :=
  { chunks := [{ origin_rank := 0, origin_index := 1 }, { origin_rank := 1, origin_index := 0 },
               { origin_rank := 0, origin_index := 2 }] }

theorem except_bind_ok {α β : Type} (a : α) (f : α → Except String β) :
    (Except.ok a >>= f : Except String β) = f a := rfl

theorem except_bind_error {α β : Type} (e : String) (f : α → Except String β) :
    ((Except.error e : Except String α) >>= f) = Except.error e := rfl

theorem isOk_bind_false {α β : Type} (x : Except String α) (f : α → Except String β)
    (hf : ∀ a, x = Except.ok a → (f a).isOk = false) : (x >>= f).isOk = false := by
  cases x with
  | error e => rfl
  | ok a => exact hf a rfl

/-- Claim C2 (counterexample): on a recv op the source returns `true` for
every slot (its non-copy branch is `inst != send`), while the claimed
behaviour returns `false` for anything that is not a copy or reduce. -/
theorem C2_counterexample :
    writes_to_slot c2op c2slot = true ∧ writes_to_slot_claimed c2op c2slot = false := by
  decide

/-- Claim C2 (amended): `writes_to_slot` returns, for copy and reduce ops,
true exactly when the slot's buffer differs from the op's SOURCE buffer (the
index conjunction of the source is unsatisfiable); for every other
instruction it returns true exactly when the instruction is not `send`. -/
theorem C2_writes_to_slot_amended :
    ∀ (op : ROp) (slot : Int × BufKey × Int),
      writes_to_slot op slot = writes_to_slot_amended op slot := by
  intro op slot
  unfold writes_to_slot writes_to_slot_amended
  split
  · have h : (decide (slot.2.2 < op.src.index) &&
        decide (slot.2.2 > op.src.index + (op.src.size : Int))) = false := by
      by_cases h1 : slot.2.2 < op.src.index
      · have h2 : ¬ (slot.2.2 > op.src.index + (op.src.size : Int)) := by omega
        simp [h2]
      · simp [h1]
    rw [h, Bool.or_false]
  · rfl

/-- Claim C5: every op list produced by the nop-expansion block of
`ir_to_xml` has at most one dependency per op, and each multi-dependency op
is expanded into preceding nops each carrying exactly one extra
dependency, followed by the op truncated to its first dependency. -/
theorem C5_emitted_depends_le_one :
    ∀ ops : List XOp,
      (∀ o ∈ expandOps ops, o.depends.length ≤ 1) ∧
      (∀ op ∈ ops, 1 < op.depends.length →
        expandOp op = ((op.depends.drop 1).map nopFor) ++
          [{ op with depends := op.depends.take 1 }] ∧
        ∀ d ∈ op.depends.drop 1, (nopFor d).depends = [d]) := by
  intro ops
  constructor
  · intro o ho
    rw [expandOps, List.mem_flatMap] at ho
    obtain ⟨op, hop, ho⟩ := ho
    unfold expandOp at ho
    by_cases h : 1 < op.depends.length
    · rw [if_pos h] at ho
      rcases List.mem_append.1 ho with h1 | h1
      · obtain ⟨d, hd, rfl⟩ := List.mem_map.1 h1
        simp [nopFor]
      · have : o = { op with depends := op.depends.take 1 } := by
          simpa using h1
        subst this
        simp [List.length_take]
    · rw [if_neg h] at ho
      have : o = op := by simpa using ho
      subst this
      omega
  · intro op hop h
    refine ⟨?_, fun d hd => rfl⟩
    unfold expandOp
    rw [if_pos h]

theorem C5_emitted_depends_le_one_witness :
    nopFor 2 ∈ expandOps [xop3] ∧ (nopFor 2).depends.length ≤ 1 :=
  ⟨by decide, (C5_emitted_depends_le_one [xop3]).1 (nopFor 2) (by decide)⟩

/-- Claim C10: `check()` on a program whose collective name is none of
`alltoall`, `allgather`, `allreduce` returns `False` without raising. -/
theorem C10_check_unknown_collective (prog : ProgState)
    (h1 : prog.collective ≠ "alltoall") (h2 : prog.collective ≠ "allgather")
    (h3 : prog.collective ≠ "allreduce") :
    SCCLProgram_check prog = Except.ok false := by
  unfold SCCLProgram_check
  rw [if_neg h1, if_neg h2, if_neg h3]

theorem C10_check_unknown_collective_witness :
    cprog10.collective ≠ "alltoall" ∧ cprog10.collective ≠ "allgather" ∧
    cprog10.collective ≠ "allreduce" ∧ SCCLProgram_check cprog10 = Except.ok false :=
  ⟨by decide, by decide, by decide,
    C10_check_unknown_collective cprog10 (by decide) (by decide) (by decide)⟩

theorem split_eq (r : RefF) (num : Int) (h1 : ¬ num = 0) (h2 : (r.size : Int) % num = 0) :
    Ref.split r num = Except.ok ((List.range num.toNat).map (fun i =>
      { buffer := r.buffer, index := r.index + Int.ofNat i * ((r.size : Int) / num),
        size := ((r.size : Int) / num).toNat, rank := r.rank,
        missing := (∅ : Finset Int) })) := by
  unfold Ref.split passert
  rw [if_neg h1, if_pos h2]
  rfl

/-- Claim C9: every sub-ref returned by `split` carries an empty missing set,
whatever the missing set of the ref being split. -/
theorem C9_split_missing_empty (r : RefF) (num : Int) (h1 : 0 < num)
    (h2 : (r.size : Int) % num = 0) :
    ∃ subs, Ref.split r num = Except.ok subs ∧ ∀ s ∈ subs, s.missing = ∅ := by
  refine ⟨_, split_eq r num (by omega) h2, ?_⟩
  intro s hs
  obtain ⟨i, hi, rfl⟩ := List.mem_map.1 hs
  rfl

theorem C9_split_missing_empty_witness :
    ref9.missing ≠ ∅ ∧ (0 : Int) < 2 ∧ ((ref9.size : Int) % 2 = 0) ∧
    ∃ subs, Ref.split ref9 2 = Except.ok subs ∧ ∀ s ∈ subs, s.missing = ∅ :=
  ⟨by decide, by decide, by decide, C9_split_missing_empty ref9 2 (by decide) (by decide)⟩

/-- Claim C7: a ref with a nonempty missing set cannot be sent (the first
statement of `Ref.send` asserts emptiness), and the S6 scenario: grouping
`[0,4)` with `[6,10)` yields a ref over `[0,10)` with missing set `{4,5}`,
whose send fails. -/
theorem C7_send_missing_fails :
    (∀ (prog : ProgState) (self : RefF) (dst : Int) (buffer : Option BufKey)
        (index step sendtb recvtb ch : Int), self.missing ≠ ∅ →
        (Ref.sendTo prog self dst buffer index step sendtb recvtb ch).isOk = false) ∧
    (∃ refC : RefF, Ref.group refA refB = Except.ok refC ∧
        refC.missing = ({4, 5} : Finset Int) ∧ refC.index = 0 ∧ refC.size = 10 ∧
        (Ref.sendTo cprogMini refC 1 none (-1) (-1) (-1) (-1) 0).isOk = false) := by
  constructor
  · intro prog self dst buffer index step sendtb recvtb ch h
    unfold Ref.sendTo passert
    rw [if_neg h]
    rfl
  · exact ⟨{ buffer := BufKey.output, index := 0, size := 10, rank := 0,
             missing := ({4, 5} : Finset Int) }, by decide, by decide, rfl, rfl, by decide⟩

theorem C7_send_missing_fails_witness :
    ref9.missing ≠ ∅ ∧
    (Ref.sendTo cprogMini ref9 1 none (-1) (-1) (-1) (-1) 0).isOk = false :=
  ⟨by decide, C7_send_missing_fails.1 cprogMini ref9 1 none (-1) (-1) (-1) (-1) 0 (by decide)⟩

theorem lower_buffers_go_keys (instances : Nat) :
    ∀ (bufs : List (BufKey × RDBuf)) (off : Int),
      (lower_buffers_go instances off bufs).map Prod.fst = bufs.map Prod.fst := by
  intro bufs
  induction bufs with
  | nil => intro off; rfl
  | cons hd tl ih =>
    intro off
    obtain ⟨k1, b1⟩ := hd
    unfold lower_buffers_go
    by_cases h : isScratchKey k1 = true
    · rw [if_pos h]
      simp [ih, RDBuf.set_offset]
    · rw [if_neg h]
      simp [ih]

theorem scratchPrefixSize_zero (bufs : List (BufKey × RDBuf)) :
    scratchPrefixSize bufs 0 = 0 := by
  cases bufs <;> rfl

theorem scratchPrefixSize_cons_succ (hd : BufKey × RDBuf) (tl : List (BufKey × RDBuf))
    (k : Nat) :
    scratchPrefixSize (hd :: tl) (k + 1) =
      (if isScratchKey hd.1 then hd.2.instance_size else 0) + scratchPrefixSize tl k := rfl

theorem lower_buffers_go_get (instances : Nat) :
    ∀ (bufs : List (BufKey × RDBuf)) (off : Int) (k : Nat) (e : BufKey × RDBuf),
      bufs.get? k = some e → isScratchKey e.1 = true →
      (lower_buffers_go instances off bufs).get? k =
        some (e.1, { e.2 with offset := off + (scratchPrefixSize bufs k * instances : Nat) }) := by
  intro bufs
  induction bufs with
  | nil => intro off k e h hs; simp at h
  | cons hd tl ih =>
    intro off k e h hs
    obtain ⟨k1, b1⟩ := hd
    cases k with
    | zero =>
      rw [List.get?_cons_zero] at h
      injection h with h
      subst h
      unfold lower_buffers_go
      rw [if_pos (by exact hs)]
      rw [List.get?_cons_zero, scratchPrefixSize_zero]
      unfold RDBuf.set_offset
      simp
    | succ k =>
      rw [List.get?_cons_succ] at h
      unfold lower_buffers_go
      by_cases h1 : isScratchKey k1 = true
      · rw [if_pos h1]
        rw [List.get?_cons_succ]
        rw [ih (off + (b1.instance_size * instances : Nat)) k e h hs]
        have : off + ((b1.instance_size * instances : Nat) : Int) +
            ((scratchPrefixSize tl k * instances : Nat) : Int) =
            off + ((scratchPrefixSize ((k1, b1) :: tl) (k + 1) * instances : Nat) : Int) := by
          rw [scratchPrefixSize_cons_succ, if_pos h1]
          push_cast
          ring
        rw [this]
      · rw [if_neg h1]
        rw [List.get?_cons_succ]
        rw [ih off k e h hs]
        have : off + ((scratchPrefixSize tl k * instances : Nat) : Int) =
            off + ((scratchPrefixSize ((k1, b1) :: tl) (k + 1) * instances : Nat) : Int) := by
          rw [scratchPrefixSize_cons_succ, if_neg h1]
          push_cast
          ring
        rw [this]

/-- Claim C1: per rank, `RankDAG.lower_buffers` preserves the insertion order
of the buffers dict and assigns every scratch buffer the offset
`(sum of the per-instance sizes of the prior scratch buffers) * instances`;
in particular sizes 3 and 5 with `instances = 2` get offsets 0 and 6. -/
theorem C1_lower_buffers_offsets :
    (∀ (instances : Nat) (bufs : List (BufKey × RDBuf)) (k : Nat) (e : BufKey × RDBuf),
      bufs.get? k = some e → isScratchKey e.1 = true →
      (RankDAG_lower_buffers_rank instances bufs).get? k =
        some (e.1, { e.2 with offset := (scratchPrefixSize bufs k * instances : Nat) })) ∧
    (∀ (instances : Nat) (bufs : List (BufKey × RDBuf)),
      (RankDAG_lower_buffers_rank instances bufs).map Prod.fst = bufs.map Prod.fst) ∧
    RankDAG_lower_buffers_rank 2 bufsS5 =
      [(BufKey.name "a", { offset := 0, isize := 3 }),
       (BufKey.name "b", { offset := 6, isize := 5 })] := by
  refine ⟨?_, ?_, by decide⟩
  · intro instances bufs k e h hs
    have hg := lower_buffers_go_get instances bufs 0 k e h hs
    rw [RankDAG_lower_buffers_rank, hg]
    have : (0 : Int) + ((scratchPrefixSize bufs k * instances : Nat) : Int) =
        ((scratchPrefixSize bufs k * instances : Nat) : Int) := by ring
    rw [this]
  · intro instances bufs
    rw [RankDAG_lower_buffers_rank, lower_buffers_go_keys]

theorem C1_lower_buffers_offsets_witness :
    bufsS5.get? 1 = some (BufKey.name "b", { offset := -1, isize := 5 }) ∧
    isScratchKey (BufKey.name "b") = true ∧
    (RankDAG_lower_buffers_rank 2 bufsS5).get? 1 =
      some (BufKey.name "b",
        { offset := ((scratchPrefixSize bufsS5 1 * 2 : Nat) : Int), isize := 5 }) :=
  ⟨by decide, by decide,
    C1_lower_buffers_offsets.1 2 bufsS5 1
      (BufKey.name "b", { offset := -1, isize := 5 }) (by decide) (by decide)⟩

theorem chunkLe_iff (a b : Chunk) : chunkLe a b = true ↔ keyLe (chunkKey a) (chunkKey b) := by
  unfold chunkLe Chunk.ltb keyLe chunkKey
  simp only [Bool.not_eq_true', Bool.or_eq_false_iff, Bool.and_eq_false_iff,
    decide_eq_false_iff_not, decide_eq_true_eq]
  omega

theorem chunkLe_trans (a b c : Chunk) (h1 : chunkLe a b = true) (h2 : chunkLe b c = true) :
    chunkLe a c = true := by
  rw [chunkLe_iff] at h1 h2 ⊢
  unfold keyLe at h1 h2 ⊢
  omega

theorem chunkLe_total (a b : Chunk) : (chunkLe a b || chunkLe b a) = true := by
  rw [Bool.or_eq_true, chunkLe_iff, chunkLe_iff]
  unfold keyLe
  omega

theorem pySort_perm (l : List Chunk) : (pySortChunks l).Perm l :=
  List.mergeSort_perm l chunkLe

theorem pySort_sorted (l : List Chunk) :
    List.Pairwise (fun a b => chunkLe a b = true) (pySortChunks l) :=
  List.sorted_mergeSort (fun a b c => chunkLe_trans a b c) (fun a b => chunkLe_total a b) l

theorem key_sorted (l : List Chunk) :
    List.Sorted keyLe ((pySortChunks l).map chunkKey) := by
  rw [List.Sorted, List.pairwise_map]
  exact (pySort_sorted l).imp (fun h => (chunkLe_iff _ _).1 h)

theorem sorted_key_eq (l1 l2 : List Chunk)
    (hperm : (l1.map chunkKey).Perm (l2.map chunkKey)) :
    (pySortChunks l1).map chunkKey = (pySortChunks l2).map chunkKey := by
  refine List.eq_of_perm_of_sorted ?_ (key_sorted l1) (key_sorted l2)
  exact (((pySort_perm l1).map chunkKey).trans hperm).trans
    ((pySort_perm l2).map chunkKey).symm

theorem listChunkEqb_of_key_eq : ∀ l1 l2 : List Chunk,
    l1.map chunkKey = l2.map chunkKey → listChunkEqb l1 l2 = true := by
  intro l1
  induction l1 with
  | nil =>
    intro l2 h
    cases l2 with
    | nil => rfl
    | cons b t2 => simp at h
  | cons a t ih =>
    intro l2 h
    cases l2 with
    | nil => simp at h
    | cons b t2 =>
      simp only [List.map_cons, List.cons.injEq] at h
      unfold listChunkEqb
      rw [Bool.and_eq_true]
      refine ⟨?_, ih t2 h.2⟩
      unfold Chunk.eqb
      have hk := h.1
      unfold chunkKey at hk
      rw [Prod.mk.injEq] at hk
      simp [hk.1, hk.2]

/-- Claim C8: `ReduceChunk` equality is multiset equality on origin pairs:
two `ReduceChunk`s whose member lists are permutations of each other under
origin-pair equality compare equal, and consequently `a.reduce(b)` equals
`b.reduce(a)` for any chunks `a`, `b`. -/
theorem C8_reducechunk_multiset_eq :
    (∀ x y : ReduceChunk, (x.chunks.map chunkKey).Perm (y.chunks.map chunkKey) →
      ReduceChunk.eqb x y = true) ∧
    (∀ a b : Chunk,
      cvalReduce (CVal.chunk a) (some (CVal.chunk b)) =
        Except.ok (some (CVal.red [a, b])) ∧
      ReduceChunk.eqb { chunks := [a, b] } { chunks := [b, a] } = true) := by
  constructor
  · intro x y hperm
    unfold ReduceChunk.eqb
    exact listChunkEqb_of_key_eq _ _ (sorted_key_eq _ _ hperm)
  · intro a b
    refine ⟨rfl, ?_⟩
    unfold ReduceChunk.eqb
    refine listChunkEqb_of_key_eq _ _ (sorted_key_eq _ _ ?_)
    simp only [List.map_cons, List.map_nil]
    exact List.Perm.swap (chunkKey b) (chunkKey a) []

theorem C8_reducechunk_multiset_eq_witness :
    (rc8a.chunks.map chunkKey).Perm (rc8b.chunks.map chunkKey) ∧
    ReduceChunk.eqb rc8a rc8b = true :=
  ⟨by decide, C8_reducechunk_multiset_eq.1 rc8a rc8b (by decide)⟩

theorem getOp_setOp_self (g : List ROp) (i : Nat) (op : ROp) (h : i < g.length) :
    getOp (setOp g i op) i = op := by
  unfold getOp setOp
  rw [List.getD_eq_getElem?_getD, List.getElem?_set]
  simp [h]

theorem getOp_setOp_ne (g : List ROp) (i k : Nat) (op : ROp) (h : ¬ i = k) :
    getOp (setOp g i op) k = getOp g k := by
  unfold getOp setOp
  rw [List.getD_eq_getElem?_getD, List.getElem?_set, if_neg h, ← List.getD_eq_getElem?_getD]

theorem getOp_set_core (g : List ROp) (n i : Nat) (f : ROp → ROp)
    (hinst : ∀ d, (f d).inst = d.inst) (hdst : ∀ d, (f d).dst = d.dst)
    (hm : ∀ d, (f d).matchl = d.matchl) (hn : ∀ d, (f d).nexts = d.nexts) :
    (getOp (setOp g n (f (getOp g n))) i).inst = (getOp g i).inst ∧
    (getOp (setOp g n (f (getOp g n))) i).dst = (getOp g i).dst ∧
    (getOp (setOp g n (f (getOp g n))) i).matchl = (getOp g i).matchl ∧
    (getOp (setOp g n (f (getOp g n))) i).nexts = (getOp g i).nexts := by
  by_cases hni : n = i
  · subst hni
    by_cases hl : n < g.length
    · rw [getOp_setOp_self _ _ _ hl]
      exact ⟨hinst _, hdst _, hm _, hn _⟩
    · have hset : setOp g n (f (getOp g n)) = g := by
        unfold setOp
        exact List.set_eq_of_length_le (by omega)
      rw [hset]
      exact ⟨rfl, rfl, rfl, rfl⟩
  · rw [getOp_setOp_ne _ _ _ _ hni]
    exact ⟨rfl, rfl, rfl, rfl⟩

theorem prevsFold_preserves (j : Nat) (pl : List Nat) :
    ∀ (ps : List Nat) (g : List ROp) (i : Nat),
      (getOp (ps.foldl (fun g n =>
          setOp g n (let d := getOp g n;
            { d with prevs := idUnion pl (d.prevs.erase j) })) g) i).inst =
        (getOp g i).inst ∧
      (getOp (ps.foldl (fun g n =>
          setOp g n (let d := getOp g n;
            { d with prevs := idUnion pl (d.prevs.erase j) })) g) i).dst =
        (getOp g i).dst ∧
      (getOp (ps.foldl (fun g n =>
          setOp g n (let d := getOp g n;
            { d with prevs := idUnion pl (d.prevs.erase j) })) g) i).matchl =
        (getOp g i).matchl ∧
      (getOp (ps.foldl (fun g n =>
          setOp g n (let d := getOp g n;
            { d with prevs := idUnion pl (d.prevs.erase j) })) g) i).nexts =
        (getOp g i).nexts := by
  intro ps
  induction ps with
  | nil => intro g i; exact ⟨rfl, rfl, rfl, rfl⟩
  | cons n rest ih =>
    intro g i
    rw [List.foldl_cons]
    obtain ⟨h1, h2, h3, h4⟩ :=
      ih (setOp g n (let d := getOp g n;
        { d with prevs := idUnion pl (d.prevs.erase j) })) i
    obtain ⟨g1, g2, g3, g4⟩ := getOp_set_core g n i
      (fun d => { d with prevs := idUnion pl (d.prevs.erase j) })
      (fun d => rfl) (fun d => rfl) (fun d => rfl) (fun d => rfl)
    exact ⟨h1.trans g1, h2.trans g2, h3.trans g3, h4.trans g4⟩

/-- Claim C3 (amended theorem): the loop body of `_optimize_rcs`, applied to a
recv whose sole successor is a send in the same threadblock with the same
count and THE SAME DESTINATION buffer and index (`same_buf_dst` compares the
two ops' `dst` fields), fuses the pair: the recv becomes `recv_copy_send`,
takes the send's dst, absorbs its `match` list, and inherits the send's
successors (so the send is unlinked from the graph). -/
theorem C3_amended_rcs_fusion (g : List ROp) (i j : Nat)
    (hij : ¬ i = j) (hi : i < g.length)
    (hnext : (getOp g i).nexts = [j])
    (hrecv : (getOp g i).inst = Instruction.recv)
    (hsend : (getOp g j).inst = Instruction.send)
    (htb : same_tb (getOp g i) (getOp g j) = true)
    (hcnt : same_count (getOp g i) (getOp g j) = true)
    (hbuf : same_buf_dst (getOp g i) (getOp g j) = true)
    (hprev : (getOp g j).prevs = [i]) :
    (getOp (rcs_process g i) i).inst = Instruction.recv_copy_send ∧
    (getOp (rcs_process g i) i).dst = (getOp g j).dst ∧
    (getOp (rcs_process g i) i).matchl = (getOp g i).matchl ++ (getOp g j).matchl ∧
    (getOp (rcs_process g i) i).nexts = (getOp g j).nexts := by
  unfold rcs_process
  simp only [hnext]
  rw [if_pos ⟨hrecv, hsend, htb, hcnt, hbuf⟩]
  unfold remove_op
  rw [getOp_setOp_ne _ _ _ _ hij]
  have hfuse : getOp (setOp g i (rcs_fuse (getOp g i) (getOp g j))) i =
      rcs_fuse (getOp g i) (getOp g j) := getOp_setOp_self _ _ _ hi
  have hn2 : (rcs_fuse (getOp g i) (getOp g j)).nexts = [j] := hnext
  simp only [hprev, List.foldl_cons, List.foldl_nil, hfuse, hn2,
    List.erase_cons_head, List.nil_append]
  obtain ⟨p1, p2, p3, p4⟩ := prevsFold_preserves j [i] (getOp g j).nexts
    (setOp (setOp g i (rcs_fuse (getOp g i) (getOp g j))) i
      { rcs_fuse (getOp g i) (getOp g j) with nexts := (getOp g j).nexts }) i
  have hlen : i < (setOp g i (rcs_fuse (getOp g i) (getOp g j))).length := by
    unfold setOp
    rw [List.length_set]
    exact hi
  have hx : getOp (setOp (setOp g i (rcs_fuse (getOp g i) (getOp g j))) i
      { rcs_fuse (getOp g i) (getOp g j) with nexts := (getOp g j).nexts }) i =
      { rcs_fuse (getOp g i) (getOp g j) with nexts := (getOp g j).nexts } :=
    getOp_setOp_self _ _ _ hlen
  rw [hx] at p1 p2 p3 p4
  exact ⟨p1, p2, p3, p4⟩

/-- Claim C3 (counterexample): a recv whose sole successor send reads exactly
the recv's destination (`send.src = recv.dst`, same buffer and index), in the
same threadblock and with the same count, is NOT fused by `_optimize_rcs`,
because the code's guard compares the two DESTINATIONS and the send targets a
different index on the peer. -/
theorem C3_counterexample :
    rcsOpSend.src = rcsOpRecv.dst ∧
    (getOp rcsCounterGraph 0).nexts = [1] ∧
    same_tb rcsOpRecv rcsOpSend = true ∧
    same_count rcsOpRecv rcsOpSend = true ∧
    (getOp (rcs_run 10 rcsCounterGraph [0]) 0).inst = Instruction.recv ∧
    (getOp (rcs_run 10 rcsCounterGraph [0]) 0).nexts = [1] := by
  decide

theorem C3_amended_rcs_fusion_witness :
    (getOp (rcs_process rcsWitnessGraph 0) 0).inst = Instruction.recv_copy_send ∧
    (getOp (rcs_process rcsWitnessGraph 0) 0).dst = (getOp rcsWitnessGraph 1).dst ∧
    (getOp (rcs_process rcsWitnessGraph 0) 0).matchl =
      (getOp rcsWitnessGraph 0).matchl ++ (getOp rcsWitnessGraph 1).matchl ∧
    (getOp (rcs_process rcsWitnessGraph 0) 0).nexts = (getOp rcsWitnessGraph 1).nexts :=
  C3_amended_rcs_fusion rcsWitnessGraph 0 1 (by decide) (by decide) (by decide)
    (by decide) (by decide) (by decide) (by decide) (by decide) (by decide)

theorem alookup_aset_self {κ β : Type} [DecidableEq κ] :
    ∀ (l : List (κ × β)) (k : κ) (v : β), alookup (aset l k v) k = some v := by
  intro l k v
  induction l with
  | nil => simp [aset, alookup]
  | cons hd tl ih =>
    obtain ⟨k2, w⟩ := hd
    unfold aset
    by_cases h : k2 = k
    · rw [if_pos h]
      unfold alookup
      rw [if_pos h]
    · rw [if_neg h]
      unfold alookup
      rw [if_neg h]
      exact ih

theorem pyIdx_lt (n : Nat) (i : Int) (j : Nat) (h : pyIdx n i = some j) : j < n := by
  unfold pyIdx at h
  split at h
  · injection h with h
    omega
  · exact Option.noConfusion h

theorem pyListGet_ok {α : Type} (l : List α) (i : Int) (a : α)
    (h : pyListGet l i = Except.ok a) :
    ∃ j, pyIdx l.length i = some j ∧ l.get? j = some a := by
  unfold pyListGet at h
  split at h
  · rename_i j heq
    split at h
    · rename_i v hv
      injection h with h
      subst h
      exact ⟨j, heq, hv⟩
    · exact Except.noConfusion h
  · exact Except.noConfusion h

theorem pyListGet_after_set {α : Type} (l : List α) (i : Int) (b : α) (j : Nat)
    (hidx : pyIdx l.length i = some j) :
    pyListGet (l.set j b) i = Except.ok b := by
  have hj : j < l.length := pyIdx_lt _ _ _ hidx
  have hg : (l.set j b)[j]? = some b := by
    rw [List.getElem?_set, if_pos rfl, if_pos hj]
  unfold pyListGet
  rw [List.length_set, hidx]
  simp [hg]

theorem setRankSt_get (prog prog2 : ProgState) (r : Int) (q : ProcState)
    (h : setRankSt prog r q = Except.ok prog2) :
    getRank prog2 r = Except.ok q ∧ prog2.arena = prog.arena := by
  unfold setRankSt at h
  cases hs : pyListSet prog.ranks r q with
  | error e => rw [hs, except_bind_error] at h; exact Except.noConfusion h
  | ok l2 =>
    rw [hs, except_bind_ok] at h
    injection h with h
    unfold pyListSet at hs
    split at hs
    · rename_i j hidx
      injection hs with hs
      subst hs
      rw [← h]
      exact ⟨pyListGet_after_set _ _ _ _ hidx, rfl⟩
    · exact Except.noConfusion hs

theorem rankTbLookup_after_setRank (prog prog2 : ProgState) (r : Int) (q : ProcState)
    (h : setRankSt prog r q = Except.ok prog2) (tbid : Int) :
    rankTbLookup prog2 r tbid = alookup q.tbs tbid := by
  unfold rankTbLookup
  rw [(setRankSt_get prog prog2 r q h).1]

theorem rankTbLookup_some (prog : ProgState) (r tbid : Int) (tb : TBData)
    (h : rankTbLookup prog r tbid = some tb) :
    ∃ q, getRank prog r = Except.ok q ∧ alookup q.tbs tbid = some tb := by
  unfold rankTbLookup at h
  cases hg : getRank prog r with
  | error e => rw [hg] at h; exact Option.noConfusion h
  | ok q => rw [hg] at h; exact ⟨q, rfl, h⟩

theorem rankTbLookup_setArena (prog : ProgState) (i : Nat) (op : POp) (r tbid : Int) :
    rankTbLookup (setArena prog i op) r tbid = rankTbLookup prog r tbid := rfl

theorem Proc_update_slot_ops_tbs (p : ProcState) (b : BufKey) (i : Int) (o : Nat) :
    (Proc_update_slot_ops p b i o).tbs = p.tbs := by
  unfold Proc_update_slot_ops
  split <;> rfl

theorem procBufSet_tbs (p p2 : ProcState) (k : BufKey) (i : Int) (v : Option CVal)
    (h : procBufSet p k i v = Except.ok p2) : p2.tbs = p.tbs := by
  unfold procBufSet at h
  split at h
  · rename_i b hb
    cases hs : bufSet b i v with
    | error e => rw [hs, except_bind_error] at h; exact Except.noConfusion h
    | ok b2 =>
      rw [hs, except_bind_ok] at h
      injection h with h
      rw [← h]
  · exact Except.noConfusion h

theorem slotFold_tbs (b : BufKey) (ix : Int) (o : Nat) :
    ∀ (l : List Nat) (p : ProcState),
      (l.foldl (fun p _ => Proc_update_slot_ops p b ix o) p).tbs = p.tbs := by
  intro l
  induction l with
  | nil => intro p; rfl
  | cons a t ih =>
    intro p
    rw [List.foldl_cons]
    rw [ih (Proc_update_slot_ops p b ix o)]
    exact Proc_update_slot_ops_tbs p b ix o

theorem foldlM_rankTb {α : Type} (f : ProgState → α → Except String ProgState)
    (r : Int) (tbid : Int)
    (hf : ∀ s a s2, f s a = Except.ok s2 →
      rankTbLookup s2 r tbid = rankTbLookup s r tbid) :
    ∀ (l : List α) (s s2 : ProgState), List.foldlM f s l = Except.ok s2 →
      rankTbLookup s2 r tbid = rankTbLookup s r tbid := by
  intro l
  induction l with
  | nil =>
    intro s s2 h
    rw [List.foldlM_nil] at h
    injection h with h
    rw [h]
  | cons a t ih =>
    intro s s2 h
    rw [List.foldlM_cons] at h
    cases hx : f s a with
    | error e => rw [hx, except_bind_error] at h; exact Except.noConfusion h
    | ok s1 =>
      rw [hx, except_bind_ok] at h
      exact (ih s1 s2 h).trans (hf s a s1 hx)

theorem recvChunkStep_rankTb (r : Int) (op : POp) (opId : Nat) (prog prog2 : ProgState)
    (i : Nat) (tbid : Int)
    (h : recvChunkStep r op opId prog i = Except.ok prog2) :
    rankTbLookup prog2 r tbid = rankTbLookup prog r tbid := by
  unfold recvChunkStep at h
  cases h1 : getRank prog op.src.rank with
  | error e => rw [h1, except_bind_error] at h; exact Except.noConfusion h
  | ok srcp =>
    rw [h1, except_bind_ok] at h
    cases h2 : procBufGet srcp op.src.buffer (op.src.index + (i : Int)) with
    | error e => rw [h2, except_bind_error] at h; exact Except.noConfusion h
    | ok v =>
      rw [h2, except_bind_ok] at h
      cases h3 : getRank prog r with
      | error e => rw [h3, except_bind_error] at h; exact Except.noConfusion h
      | ok selfp =>
        rw [h3, except_bind_ok] at h
        cases h4 : procBufSet selfp op.dst.buffer (op.dst.index + (i : Int)) v with
        | error e => rw [h4, except_bind_error] at h; exact Except.noConfusion h
        | ok selfp2 =>
          rw [h4, except_bind_ok] at h
          rw [rankTbLookup_after_setRank _ _ _ _ h]
          have ht : (Proc_update_slot_ops selfp2 op.dst.buffer
              (op.dst.index + (i : Int)) opId).tbs = selfp.tbs :=
            (Proc_update_slot_ops_tbs _ _ _ _).trans (procBufSet_tbs _ _ _ _ _ h4)
          rw [ht]
          unfold rankTbLookup
          rw [h3]

theorem copyChunkStep_rankTb (r : Int) (op : POp) (opId : Nat) (prog prog2 : ProgState)
    (i : Nat) (tbid : Int)
    (h : copyChunkStep r op opId prog i = Except.ok prog2) :
    rankTbLookup prog2 r tbid = rankTbLookup prog r tbid := by
  unfold copyChunkStep at h
  cases h3 : getRank prog r with
  | error e => rw [h3, except_bind_error] at h; exact Except.noConfusion h
  | ok selfp =>
    rw [h3, except_bind_ok] at h
    cases h2 : procBufGet selfp op.src.buffer (op.src.index + (i : Int)) with
    | error e => rw [h2, except_bind_error] at h; exact Except.noConfusion h
    | ok v =>
      rw [h2, except_bind_ok] at h
      cases h4 : procBufSet selfp op.dst.buffer (op.dst.index + (i : Int)) v with
      | error e => rw [h4, except_bind_error] at h; exact Except.noConfusion h
      | ok selfp2 =>
        rw [h4, except_bind_ok] at h
        rw [rankTbLookup_after_setRank _ _ _ _ h]
        have ht : (Proc_update_slot_ops selfp2 op.dst.buffer
            (op.dst.index + (i : Int)) opId).tbs = selfp.tbs :=
          (Proc_update_slot_ops_tbs _ _ _ _).trans (procBufSet_tbs _ _ _ _ _ h4)
        rw [ht]
        unfold rankTbLookup
        rw [h3]

theorem rrcChunkStep_rankTb (r : Int) (op : POp) (opId : Nat) (prog prog2 : ProgState)
    (i : Nat) (tbid : Int)
    (h : rrcChunkStep r op opId prog i = Except.ok prog2) :
    rankTbLookup prog2 r tbid = rankTbLookup prog r tbid := by
  unfold rrcChunkStep at h
  cases h3 : getRank prog r with
  | error e => rw [h3, except_bind_error] at h; exact Except.noConfusion h
  | ok selfp =>
    rw [h3, except_bind_ok] at h
    cases h2 : procBufGet selfp op.dst.buffer (op.dst.index + (i : Int)) with
    | error e => rw [h2, except_bind_error] at h; exact Except.noConfusion h
    | ok rc =>
      rw [h2, except_bind_ok] at h
      cases h1 : getRank prog op.src.rank with
      | error e => rw [h1, except_bind_error] at h; exact Except.noConfusion h
      | ok srcp =>
        rw [h1, except_bind_ok] at h
        cases h5 : procBufGet srcp op.src.buffer (op.src.index + (i : Int)) with
        | error e => rw [h5, except_bind_error] at h; exact Except.noConfusion h
        | ok oc =>
          rw [h5, except_bind_ok] at h
          cases rc with
          | none => exact Except.noConfusion h
          | some rcv =>
            dsimp only at h
            cases h6 : cvalReduce rcv oc with
            | error e => rw [h6, except_bind_error] at h; exact Except.noConfusion h
            | ok res =>
              rw [h6, except_bind_ok] at h
              cases h4 : procBufSet selfp op.dst.buffer (op.dst.index + (i : Int)) res with
              | error e => rw [h4, except_bind_error] at h; exact Except.noConfusion h
              | ok selfp2 =>
                rw [h4, except_bind_ok] at h
                rw [rankTbLookup_after_setRank _ _ _ _ h]
                have ht : (Proc_update_slot_ops selfp2 op.dst.buffer
                    (op.dst.index + (i : Int)) opId).tbs = selfp.tbs :=
                  (Proc_update_slot_ops_tbs _ _ _ _).trans (procBufSet_tbs _ _ _ _ _ h4)
                rw [ht]
                unfold rankTbLookup
                rw [h3]

theorem reduceChunkStep_rankTb (r : Int) (op : POp) (opId : Nat) (prog prog2 : ProgState)
    (i : Nat) (tbid : Int)
    (h : reduceChunkStep r op opId prog i = Except.ok prog2) :
    rankTbLookup prog2 r tbid = rankTbLookup prog r tbid := by
  unfold reduceChunkStep at h
  cases h3 : getRank prog r with
  | error e => rw [h3, except_bind_error] at h; exact Except.noConfusion h
  | ok selfp =>
    rw [h3, except_bind_ok] at h
    cases h2 : procBufGet selfp op.dst.buffer (op.dst.index + (i : Int)) with
    | error e => rw [h2, except_bind_error] at h; exact Except.noConfusion h
    | ok rc =>
      rw [h2, except_bind_ok] at h
      cases h1 : getRank prog op.src.rank with
      | error e => rw [h1, except_bind_error] at h; exact Except.noConfusion h
      | ok srcp =>
        rw [h1, except_bind_ok] at h
        cases h5 : procBufGet srcp op.src.buffer (op.src.index + (i : Int)) with
        | error e => rw [h5, except_bind_error] at h; exact Except.noConfusion h
        | ok oc =>
          rw [h5, except_bind_ok] at h
          cases oc with
          | none => exact Except.noConfusion h
          | some ocv =>
            dsimp only at h
            cases h6 : cvalReduce ocv rc with
            | error e => rw [h6, except_bind_error] at h; exact Except.noConfusion h
            | ok res =>
              rw [h6, except_bind_ok] at h
              cases h4 : procBufSet selfp op.dst.buffer (op.dst.index + (i : Int)) res with
              | error e => rw [h4, except_bind_error] at h; exact Except.noConfusion h
              | ok selfp2 =>
                rw [h4, except_bind_ok] at h
                rw [rankTbLookup_after_setRank _ _ _ _ h]
                have ht : (Proc_update_slot_ops selfp2 op.dst.buffer
                    (op.dst.index + (i : Int)) opId).tbs = selfp.tbs :=
                  (Proc_update_slot_ops_tbs _ _ _ _).trans (procBufSet_tbs _ _ _ _ _ h4)
                rw [ht]
                unfold rankTbLookup
                rw [h3]

theorem sendTbUpdate_conflict (p : ProcState) (rv tbid step ch sendto : Int) (opId : Nat)
    (tb : TBData) (htb : alookup p.tbs tbid = some tb)
    (h1 : ¬ tb.send = -1) (h2 : ¬ tb.send = sendto) :
    (sendTbUpdate p rv tbid step ch sendto opId).isOk = false := by
  unfold sendTbUpdate
  split
  · rename_i heq
    rw [htb] at heq
    exact Option.noConfusion heq
  · rename_i tb2 heq
    rw [htb] at heq
    injection heq with heq
    subst heq
    unfold passert
    rw [if_neg (by tauto)]
    rfl

theorem sendTbUpdate_occupied (p : ProcState) (rv tbid step ch sendto : Int) (opId : Nat)
    (tb : TBData) (htb : alookup p.tbs tbid = some tb)
    (hocc : amem tb.ops step = true) :
    (sendTbUpdate p rv tbid step ch sendto opId).isOk = false := by
  unfold sendTbUpdate
  split
  · rename_i heq
    rw [htb] at heq
    exact Option.noConfusion heq
  · rename_i tb2 heq
    rw [htb] at heq
    injection heq with heq
    subst heq
    unfold passert
    by_cases hpeer : tb.send = -1 ∨ tb.send = sendto
    · rw [if_pos hpeer, except_bind_ok, if_neg (by rw [hocc]; simp)]
      rfl
    · rw [if_neg hpeer]
      rfl

theorem sendTbUpdate_ok (p p2 : ProcState) (rv tbid step ch sendto : Int) (opId : Nat)
    (tb : TBData) (htb : alookup p.tbs tbid = some tb)
    (h : sendTbUpdate p rv tbid step ch sendto opId = Except.ok p2) :
    (tb.send = -1 ∨ tb.send = sendto) ∧
    alookup p2.tbs tbid = some { tb with send := sendto, ops := aset tb.ops step opId } := by
  unfold sendTbUpdate at h
  split at h
  · rename_i heq
    rw [htb] at heq
    exact Option.noConfusion heq
  · rename_i tb2 heq
    rw [htb] at heq
    injection heq with heq
    subst heq
    unfold passert at h
    by_cases hpeer : tb.send = -1 ∨ tb.send = sendto
    · rw [if_pos hpeer, except_bind_ok] at h
      by_cases hocc : amem tb.ops step = false
      · rw [if_pos hocc, except_bind_ok] at h
        injection h with h
        rw [← h]
        exact ⟨hpeer, alookup_aset_self _ _ _⟩
      · rw [if_neg hocc, except_bind_error] at h
        exact Except.noConfusion h
    · rw [if_neg hpeer, except_bind_error] at h
      exact Except.noConfusion h

theorem recvTbUpdate_conflict (p : ProcState) (rv tbid step ch rf : Int) (opId : Nat)
    (tb : TBData) (htb : alookup p.tbs tbid = some tb)
    (h1 : ¬ tb.recv = -1) (h2 : ¬ tb.recv = rf) :
    (recvTbUpdate p rv tbid step ch rf opId).isOk = false := by
  unfold recvTbUpdate
  split
  · rename_i heq
    rw [htb] at heq
    exact Option.noConfusion heq
  · rename_i tb2 heq
    rw [htb] at heq
    injection heq with heq
    subst heq
    unfold passert
    rw [if_neg (by tauto)]
    rfl

theorem recvTbUpdate_occupied (p : ProcState) (rv tbid step ch rf : Int) (opId : Nat)
    (tb : TBData) (htb : alookup p.tbs tbid = some tb)
    (hocc : amem tb.ops step = true) :
    (recvTbUpdate p rv tbid step ch rf opId).isOk = false := by
  unfold recvTbUpdate
  split
  · rename_i heq
    rw [htb] at heq
    exact Option.noConfusion heq
  · rename_i tb2 heq
    rw [htb] at heq
    injection heq with heq
    subst heq
    unfold passert
    by_cases hpeer : tb.recv = -1 ∨ tb.recv = rf
    · rw [if_pos hpeer, except_bind_ok, if_neg (by rw [hocc]; simp)]
      rfl
    · rw [if_neg hpeer]
      rfl

theorem recvTbUpdate_ok (p p2 : ProcState) (rv tbid step ch rf : Int) (opId : Nat)
    (tb : TBData) (htb : alookup p.tbs tbid = some tb)
    (h : recvTbUpdate p rv tbid step ch rf opId = Except.ok p2) :
    (tb.recv = -1 ∨ tb.recv = rf) ∧
    alookup p2.tbs tbid = some { tb with recv := rf, ops := aset tb.ops step opId } := by
  unfold recvTbUpdate at h
  split at h
  · rename_i heq
    rw [htb] at heq
    exact Option.noConfusion heq
  · rename_i tb2 heq
    rw [htb] at heq
    injection heq with heq
    subst heq
    unfold passert at h
    by_cases hpeer : tb.recv = -1 ∨ tb.recv = rf
    · rw [if_pos hpeer, except_bind_ok] at h
      by_cases hocc : amem tb.ops step = false
      · rw [if_pos hocc, except_bind_ok] at h
        injection h with h
        rw [← h]
        exact ⟨hpeer, alookup_aset_self _ _ _⟩
      · rw [if_neg hocc, except_bind_error] at h
        exact Except.noConfusion h
    · rw [if_neg hpeer, except_bind_error] at h
      exact Except.noConfusion h

theorem copyTbUpdate_overwrites (p : ProcState) (tbid step ch : Int) (opId : Nat)
    (tb : TBData) (htb : alookup p.tbs tbid = some tb) :
    alookup (copyTbUpdate p tbid step ch opId).tbs tbid =
      some { tb with ops := aset tb.ops step opId } := by
  unfold copyTbUpdate
  split
  · rename_i heq
    rw [htb] at heq
    exact Option.noConfusion heq
  · rename_i tb2 heq
    rw [htb] at heq
    injection heq with heq
    subst heq
    exact alookup_aset_self _ _ _

theorem add_send_occupied (prog : ProgState) (r tbid0 step ch : Int) (opId : Nat)
    (op : POp) (p : ProcState) (tb : TBData)
    (hop : getArena prog opId = Except.ok op)
    (hinst : op.inst = Instruction.send)
    (hr : getRank prog r = Except.ok p)
    (htbid : ¬ tbid0 = -1)
    (htb : alookup p.tbs tbid0 = some tb)
    (hocc : amem tb.ops step = true) :
    (Proc_add_send prog r tbid0 step ch opId).isOk = false := by
  unfold Proc_add_send
  rw [hop, except_bind_ok]
  unfold passert
  rw [if_pos hinst, except_bind_ok, hr, except_bind_ok, if_neg htbid]
  dsimp only
  apply isOk_bind_false
  intro p2 hp2
  have hff := sendTbUpdate_occupied p r tbid0 step ch op.dst.rank opId tb htb hocc
  rw [hp2] at hff
  exact Bool.noConfusion hff

theorem add_send_conflict (prog : ProgState) (r tbid0 step ch : Int) (opId : Nat)
    (op : POp) (p : ProcState) (tb : TBData)
    (hop : getArena prog opId = Except.ok op)
    (hinst : op.inst = Instruction.send)
    (hr : getRank prog r = Except.ok p)
    (htbid : ¬ tbid0 = -1)
    (htb : alookup p.tbs tbid0 = some tb)
    (h1 : ¬ tb.send = -1) (h2 : ¬ tb.send = op.dst.rank) :
    (Proc_add_send prog r tbid0 step ch opId).isOk = false := by
  unfold Proc_add_send
  rw [hop, except_bind_ok]
  unfold passert
  rw [if_pos hinst, except_bind_ok, hr, except_bind_ok, if_neg htbid]
  dsimp only
  apply isOk_bind_false
  intro p2 hp2
  have hff := sendTbUpdate_conflict p r tbid0 step ch op.dst.rank opId tb htb h1 h2
  rw [hp2] at hff
  exact Bool.noConfusion hff

theorem add_send_ok_peer (prog prog2 : ProgState) (r tbid0 step ch : Int) (opId : Nat)
    (op : POp) (p : ProcState) (tb : TBData)
    (hop : getArena prog opId = Except.ok op)
    (hinst : op.inst = Instruction.send)
    (hr : getRank prog r = Except.ok p)
    (htbid : ¬ tbid0 = -1)
    (htb : alookup p.tbs tbid0 = some tb)
    (h : Proc_add_send prog r tbid0 step ch opId = Except.ok prog2) :
    (tb.send = -1 ∨ tb.send = op.dst.rank) ∧
    rankTbLookup prog2 r tbid0 =
      some { tb with send := op.dst.rank, ops := aset tb.ops step opId } := by
  unfold Proc_add_send at h
  rw [hop, except_bind_ok] at h
  unfold passert at h
  rw [if_pos hinst, except_bind_ok, hr, except_bind_ok, if_neg htbid] at h
  dsimp only at h
  cases hs : sendTbUpdate p r tbid0 step ch op.dst.rank opId with
  | error e => rw [hs, except_bind_error] at h; exact Except.noConfusion h
  | ok p2 =>
    rw [hs, except_bind_ok] at h
    obtain ⟨hpeer, hp2⟩ := sendTbUpdate_ok p p2 r tbid0 step ch op.dst.rank opId tb htb hs
    refine ⟨hpeer, ?_⟩
    cases hd : Proc_get_dependences prog p2 op.src.buffer op.src.index op.src.size with
    | error e => rw [hd, except_bind_error] at h; exact Except.noConfusion h
    | ok deps =>
      rw [hd, except_bind_ok] at h
      cases h1 : setRankSt prog r p2 with
      | error e => rw [h1, except_bind_error] at h; exact Except.noConfusion h
      | ok prog1 =>
        rw [h1, except_bind_ok] at h
        have hgA : getRank (setArena prog1 opId { op with tb := tbid0, depends := deps }) r =
            getRank prog1 r := rfl
        rw [hgA, (setRankSt_get prog prog1 r p2 h1).1, except_bind_ok] at h
        rw [rankTbLookup_after_setRank _ _ _ _ h]
        rw [slotFold_tbs]
        exact hp2

theorem add_recv_occupied (prog : ProgState) (r tbid0 step ch : Int) (opId : Nat)
    (op : POp) (p : ProcState) (tb : TBData)
    (hop : getArena prog opId = Except.ok op)
    (hinst : op.inst = Instruction.recv)
    (hr : getRank prog r = Except.ok p)
    (htbid : ¬ tbid0 = -1)
    (htb : alookup p.tbs tbid0 = some tb)
    (hocc : amem tb.ops step = true) :
    (Proc_add_recv prog r tbid0 step ch opId).isOk = false := by
  unfold Proc_add_recv
  rw [hop, except_bind_ok]
  unfold passert
  rw [if_pos hinst, except_bind_ok, hr, except_bind_ok, if_neg htbid]
  dsimp only
  apply isOk_bind_false
  intro deps hdeps
  apply isOk_bind_false
  intro prog1 h1
  apply isOk_bind_false
  intro prog2 h2
  have hL2 : rankTbLookup prog2 r tbid0 = some tb := by
    rw [foldlM_rankTb (recvChunkStep r op opId) r tbid0
      (fun s a s2 hh => recvChunkStep_rankTb r op opId s s2 a tbid0 hh) _ _ _ h2]
    rw [rankTbLookup_setArena]
    rw [rankTbLookup_after_setRank _ _ _ _ h1]
    exact htb
  obtain ⟨q, hq, hqtb⟩ := rankTbLookup_some _ _ _ _ hL2
  rw [hq, except_bind_ok]
  apply isOk_bind_false
  intro p4 hp4
  have hff := recvTbUpdate_occupied q r tbid0 step ch op.src.rank opId tb hqtb hocc
  rw [hp4] at hff
  exact Bool.noConfusion hff

theorem add_recv_conflict (prog : ProgState) (r tbid0 step ch : Int) (opId : Nat)
    (op : POp) (p : ProcState) (tb : TBData)
    (hop : getArena prog opId = Except.ok op)
    (hinst : op.inst = Instruction.recv)
    (hr : getRank prog r = Except.ok p)
    (htbid : ¬ tbid0 = -1)
    (htb : alookup p.tbs tbid0 = some tb)
    (h1c : ¬ tb.recv = -1) (h2c : ¬ tb.recv = op.src.rank) :
    (Proc_add_recv prog r tbid0 step ch opId).isOk = false := by
  unfold Proc_add_recv
  rw [hop, except_bind_ok]
  unfold passert
  rw [if_pos hinst, except_bind_ok, hr, except_bind_ok, if_neg htbid]
  dsimp only
  apply isOk_bind_false
  intro deps hdeps
  apply isOk_bind_false
  intro prog1 h1
  apply isOk_bind_false
  intro prog2 h2
  have hL2 : rankTbLookup prog2 r tbid0 = some tb := by
    rw [foldlM_rankTb (recvChunkStep r op opId) r tbid0
      (fun s a s2 hh => recvChunkStep_rankTb r op opId s s2 a tbid0 hh) _ _ _ h2]
    rw [rankTbLookup_setArena]
    rw [rankTbLookup_after_setRank _ _ _ _ h1]
    exact htb
  obtain ⟨q, hq, hqtb⟩ := rankTbLookup_some _ _ _ _ hL2
  rw [hq, except_bind_ok]
  apply isOk_bind_false
  intro p4 hp4
  have hff := recvTbUpdate_conflict q r tbid0 step ch op.src.rank opId tb hqtb h1c h2c
  rw [hp4] at hff
  exact Bool.noConfusion hff

theorem add_recv_ok_peer (prog prog2 : ProgState) (r tbid0 step ch : Int) (opId : Nat)
    (op : POp) (p : ProcState) (tb : TBData)
    (hop : getArena prog opId = Except.ok op)
    (hinst : op.inst = Instruction.recv)
    (hr : getRank prog r = Except.ok p)
    (htbid : ¬ tbid0 = -1)
    (htb : alookup p.tbs tbid0 = some tb)
    (h : Proc_add_recv prog r tbid0 step ch opId = Except.ok prog2) :
    (tb.recv = -1 ∨ tb.recv = op.src.rank) ∧
    rankTbLookup prog2 r tbid0 =
      some { tb with recv := op.src.rank, ops := aset tb.ops step opId } := by
  unfold Proc_add_recv at h
  rw [hop, except_bind_ok] at h
  unfold passert at h
  rw [if_pos hinst, except_bind_ok, hr, except_bind_ok, if_neg htbid] at h
  dsimp only at h
  cases hd : Proc_get_dependences prog p op.src.buffer op.src.index op.src.size with
  | error e => rw [hd, except_bind_error] at h; exact Except.noConfusion h
  | ok deps =>
    rw [hd, except_bind_ok] at h
    cases h1 : setRankSt prog r p with
    | error e => rw [h1, except_bind_error] at h; exact Except.noConfusion h
    | ok prog1 =>
      rw [h1, except_bind_ok] at h
      cases h2 : List.foldlM (recvChunkStep r op opId)
          (setArena prog1 opId { op with tb := tbid0, depends := deps })
          (List.range op.src.size) with
      | error e => rw [h2, except_bind_error] at h; exact Except.noConfusion h
      | ok progB =>
        rw [h2, except_bind_ok] at h
        have hLB : rankTbLookup progB r tbid0 = some tb := by
          rw [foldlM_rankTb (recvChunkStep r op opId) r tbid0
            (fun s a s2 hh => recvChunkStep_rankTb r op opId s s2 a tbid0 hh) _ _ _ h2]
          rw [rankTbLookup_setArena]
          rw [rankTbLookup_after_setRank _ _ _ _ h1]
          exact htb
        obtain ⟨q, hq, hqtb⟩ := rankTbLookup_some _ _ _ _ hLB
        rw [hq, except_bind_ok] at h
        cases hu : recvTbUpdate q r tbid0 step ch op.src.rank opId with
        | error e => rw [hu, except_bind_error] at h; exact Except.noConfusion h
        | ok p4 =>
          rw [hu, except_bind_ok] at h
          obtain ⟨hpeer, hp4⟩ :=
            recvTbUpdate_ok q p4 r tbid0 step ch op.src.rank opId tb hqtb hu
          refine ⟨hpeer, ?_⟩
          rw [rankTbLookup_after_setRank _ _ _ _ h]
          exact hp4

theorem add_rrc_occupied (prog : ProgState) (r tbid0 step ch : Int) (opId : Nat)
    (op : POp) (p : ProcState) (tb : TBData)
    (hop : getArena prog opId = Except.ok op)
    (hr : getRank prog r = Except.ok p)
    (htbid : ¬ tbid0 = -1)
    (htb : alookup p.tbs tbid0 = some tb)
    (hocc : amem tb.ops step = true) :
    (Proc_add_receive_reduce_copy prog r tbid0 step ch opId).isOk = false := by
  unfold Proc_add_receive_reduce_copy
  rw [hop, except_bind_ok, hr, except_bind_ok, if_neg htbid]
  dsimp only
  apply isOk_bind_false
  intro deps hdeps
  apply isOk_bind_false
  intro prog1 h1
  apply isOk_bind_false
  intro prog2 h2
  have hL2 : rankTbLookup prog2 r tbid0 = some tb := by
    rw [foldlM_rankTb (rrcChunkStep r op opId) r tbid0
      (fun s a s2 hh => rrcChunkStep_rankTb r op opId s s2 a tbid0 hh) _ _ _ h2]
    rw [rankTbLookup_setArena]
    rw [rankTbLookup_after_setRank _ _ _ _ h1]
    exact htb
  obtain ⟨q, hq, hqtb⟩ := rankTbLookup_some _ _ _ _ hL2
  rw [hq, except_bind_ok]
  apply isOk_bind_false
  intro p4 hp4
  have hff := recvTbUpdate_occupied q r tbid0 step ch op.src.rank opId tb hqtb hocc
  rw [hp4] at hff
  exact Bool.noConfusion hff

theorem add_reduce_occupied (prog : ProgState) (r tbid0 step ch : Int) (opId : Nat)
    (op : POp) (p : ProcState) (tb : TBData)
    (hop : getArena prog opId = Except.ok op)
    (hr : getRank prog r = Except.ok p)
    (htbid : ¬ tbid0 = -1)
    (htb : alookup p.tbs tbid0 = some tb)
    (hocc : amem tb.ops step = true) :
    (Proc_add_reduce prog r tbid0 step ch opId).isOk = false := by
  unfold Proc_add_reduce
  rw [hop, except_bind_ok, hr, except_bind_ok, if_neg htbid]
  dsimp only
  apply isOk_bind_false
  intro deps hdeps
  apply isOk_bind_false
  intro prog1 h1
  apply isOk_bind_false
  intro prog2 h2
  have hL2 : rankTbLookup prog2 r tbid0 = some tb := by
    rw [foldlM_rankTb (reduceChunkStep r op opId) r tbid0
      (fun s a s2 hh => reduceChunkStep_rankTb r op opId s s2 a tbid0 hh) _ _ _ h2]
    rw [rankTbLookup_setArena]
    rw [rankTbLookup_after_setRank _ _ _ _ h1]
    exact htb
  obtain ⟨q, hq, hqtb⟩ := rankTbLookup_some _ _ _ _ hL2
  rw [hq, except_bind_ok]
  apply isOk_bind_false
  intro p4 hp4
  have hff := recvTbUpdate_occupied q r tbid0 step ch op.src.rank opId tb hqtb hocc
  rw [hp4] at hff
  exact Bool.noConfusion hff

/-- Claim C4 (amended): adding an op to a threadblock at an occupied step is a
fatal assertion failure for `_add_send`, `_add_recv`,
`_add_receive_reduce_copy` and `_add_reduce`; `_add_copy` alone performs no
duplicate-step check and silently overwrites the op stored at that step. -/
theorem C4_amended_duplicate_step :
    (∀ (prog : ProgState) (r tbid0 step ch : Int) (opId : Nat) (op : POp)
        (p : ProcState) (tb : TBData),
      getArena prog opId = Except.ok op → op.inst = Instruction.send →
      getRank prog r = Except.ok p → ¬ tbid0 = -1 →
      alookup p.tbs tbid0 = some tb → amem tb.ops step = true →
      (Proc_add_send prog r tbid0 step ch opId).isOk = false) ∧
    (∀ (prog : ProgState) (r tbid0 step ch : Int) (opId : Nat) (op : POp)
        (p : ProcState) (tb : TBData),
      getArena prog opId = Except.ok op → op.inst = Instruction.recv →
      getRank prog r = Except.ok p → ¬ tbid0 = -1 →
      alookup p.tbs tbid0 = some tb → amem tb.ops step = true →
      (Proc_add_recv prog r tbid0 step ch opId).isOk = false) ∧
    (∀ (prog : ProgState) (r tbid0 step ch : Int) (opId : Nat) (op : POp)
        (p : ProcState) (tb : TBData),
      getArena prog opId = Except.ok op →
      getRank prog r = Except.ok p → ¬ tbid0 = -1 →
      alookup p.tbs tbid0 = some tb → amem tb.ops step = true →
      (Proc_add_receive_reduce_copy prog r tbid0 step ch opId).isOk = false) ∧
    (∀ (prog : ProgState) (r tbid0 step ch : Int) (opId : Nat) (op : POp)
        (p : ProcState) (tb : TBData),
      getArena prog opId = Except.ok op →
      getRank prog r = Except.ok p → ¬ tbid0 = -1 →
      alookup p.tbs tbid0 = some tb → amem tb.ops step = true →
      (Proc_add_reduce prog r tbid0 step ch opId).isOk = false) ∧
    (∀ (p : ProcState) (tbid step ch : Int) (opId : Nat) (tb : TBData),
      alookup p.tbs tbid = some tb →
      alookup (copyTbUpdate p tbid step ch opId).tbs tbid =
        some { tb with ops := aset tb.ops step opId }) := by
  refine ⟨?_, ?_, ?_, ?_, ?_⟩
  · intro prog r tbid0 step ch opId op p tb hop hinst hr htbid htb hocc
    exact add_send_occupied prog r tbid0 step ch opId op p tb hop hinst hr htbid htb hocc
  · intro prog r tbid0 step ch opId op p tb hop hinst hr htbid htb hocc
    exact add_recv_occupied prog r tbid0 step ch opId op p tb hop hinst hr htbid htb hocc
  · intro prog r tbid0 step ch opId op p tb hop hr htbid htb hocc
    exact add_rrc_occupied prog r tbid0 step ch opId op p tb hop hr htbid htb hocc
  · intro prog r tbid0 step ch opId op p tb hop hr htbid htb hocc
    exact add_reduce_occupied prog r tbid0 step ch opId op p tb hop hr htbid htb hocc
  · intro p tbid step ch opId tb htb
    exact copyTbUpdate_overwrites p tbid step ch opId tb htb

/-- Claim C4 (counterexample): `_add_copy` called at a step that is already
occupied (step 0 of threadblock 0 holds op id 5) succeeds and overwrites the
entry instead of aborting. -/
theorem C4_counterexample :
    alookup procCopyOcc.tbs 0 =
      some { channel := 0, send := -1, recv := -1, ops := [(0, 5)] } ∧
    amem ([((0 : Int), (5 : Nat))]) (0 : Int) = true ∧
    (Proc_add_copy cprogCopy 0 0 0 0 0).isOk = true ∧
    resultTbOps (Proc_add_copy cprogCopy 0 0 0 0 0) 0 0 = some [(0, 0)] := by
  decide

theorem C4_amended_duplicate_step_witness :
    getArena cprogSendOcc 0 = Except.ok sendOp0 ∧
    (Proc_add_send cprogSendOcc 0 0 0 0 0).isOk = false :=
  ⟨by decide,
    C4_amended_duplicate_step.1 cprogSendOcc 0 0 0 0 0 sendOp0 procSendOcc
      { channel := 0, send := 1, recv := -1, ops := [(0, 5)] }
      (by decide) (by decide) (by decide) (by decide) (by decide) (by decide)⟩

/-- Claim C6: during program construction a threadblock's send peer is `-1`
or a single fixed rank, and likewise its recv peer: an `_add_send`
(`_add_recv`) that would bind a second, different send (recv) peer fails, and
a successful one implies the previous peer was unset or equal and leaves the
peer bound to the op's peer rank. -/
theorem C6_threadblock_peers_unique :
    (∀ (prog : ProgState) (r tbid0 step ch : Int) (opId : Nat) (op : POp)
        (p : ProcState) (tb : TBData),
      getArena prog opId = Except.ok op → op.inst = Instruction.send →
      getRank prog r = Except.ok p → ¬ tbid0 = -1 →
      alookup p.tbs tbid0 = some tb →
      ¬ tb.send = -1 → ¬ tb.send = op.dst.rank →
      (Proc_add_send prog r tbid0 step ch opId).isOk = false) ∧
    (∀ (prog prog2 : ProgState) (r tbid0 step ch : Int) (opId : Nat) (op : POp)
        (p : ProcState) (tb : TBData),
      getArena prog opId = Except.ok op → op.inst = Instruction.send →
      getRank prog r = Except.ok p → ¬ tbid0 = -1 →
      alookup p.tbs tbid0 = some tb →
      Proc_add_send prog r tbid0 step ch opId = Except.ok prog2 →
      (tb.send = -1 ∨ tb.send = op.dst.rank) ∧
      rankTbLookup prog2 r tbid0 =
        some { tb with send := op.dst.rank, ops := aset tb.ops step opId }) ∧
    (∀ (prog : ProgState) (r tbid0 step ch : Int) (opId : Nat) (op : POp)
        (p : ProcState) (tb : TBData),
      getArena prog opId = Except.ok op → op.inst = Instruction.recv →
      getRank prog r = Except.ok p → ¬ tbid0 = -1 →
      alookup p.tbs tbid0 = some tb →
      ¬ tb.recv = -1 → ¬ tb.recv = op.src.rank →
      (Proc_add_recv prog r tbid0 step ch opId).isOk = false) ∧
    (∀ (prog prog2 : ProgState) (r tbid0 step ch : Int) (opId : Nat) (op : POp)
        (p : ProcState) (tb : TBData),
      getArena prog opId = Except.ok op → op.inst = Instruction.recv →
      getRank prog r = Except.ok p → ¬ tbid0 = -1 →
      alookup p.tbs tbid0 = some tb →
      Proc_add_recv prog r tbid0 step ch opId = Except.ok prog2 →
      (tb.recv = -1 ∨ tb.recv = op.src.rank) ∧
      rankTbLookup prog2 r tbid0 =
        some { tb with recv := op.src.rank, ops := aset tb.ops step opId }) := by
  refine ⟨?_, ?_, ?_, ?_⟩
  · intro prog r tbid0 step ch opId op p tb hop hinst hr htbid htb h1 h2
    exact add_send_conflict prog r tbid0 step ch opId op p tb hop hinst hr htbid htb h1 h2
  · intro prog prog2 r tbid0 step ch opId op p tb hop hinst hr htbid htb h
    exact add_send_ok_peer prog prog2 r tbid0 step ch opId op p tb hop hinst hr htbid htb h
  · intro prog r tbid0 step ch opId op p tb hop hinst hr htbid htb h1 h2
    exact add_recv_conflict prog r tbid0 step ch opId op p tb hop hinst hr htbid htb h1 h2
  · intro prog prog2 r tbid0 step ch opId op p tb hop hinst hr htbid htb h
    exact add_recv_ok_peer prog prog2 r tbid0 step ch opId op p tb hop hinst hr htbid htb h

theorem C6_threadblock_peers_unique_witness :
    (Proc_add_send cprogPeerConf 0 0 0 0 0).isOk = false :=
  C6_threadblock_peers_unique.1 cprogPeerConf 0 0 0 0 0 sendOp0 procPeerConf
    { channel := 0, send := 2, recv := 3, ops := [] }
    (by decide) (by decide) (by decide) (by decide) (by decide) (by decide) (by decide)
